import Mathlib

/-!
Verification of the core of reindeer's rule generation and serialization
(`src/buck.rs`, `src/buckify.rs`): the buildifier-style label/path
comparator, declaration sort keys, field-omission behavior of the
serializers, the attribute partitioner, dependency fan-out, the library
emission branch, the graph walker's visited-set discipline, and path
normalization.  Rust strings are modelled as Lean `String`/`List Char`
(UTF-8 byte order coincides with codepoint order), `BTreeSet`/`BTreeMap`
as lists with comparator-based insertion, and fallible code as `Except`.
-/

namespace Reindeer

/-- Comparison of two characters, as Rust compares `char`s/UTF-8 bytes
(codepoint order). -/
def charCmp (a b : Char) : Ordering :=
  compare a.toNat b.toNat

/-- Lexicographic comparison of lists given an element comparator,
modelling Rust's `Iterator::cmp`. -/
def listCmp (f : α → α → Ordering) : List α → List α → Ordering
  | [], [] => .eq
  | [], _ :: _ => .lt
  | _ :: _, [] => .gt
  | a :: as, b :: bs => (f a b).then (listCmp f as bs)

/-- Comparison of strings in Rust's derived `Ord` order for `String`
(byte lexicographic, which equals codepoint lexicographic). -/
def strCmp (a b : String) : Ordering :=
  listCmp charCmp a.data b.data

/-- Model of `str::starts_with(':')` on the character list of a string. -/
def localHead (s : List Char) : Bool :=
  match s with
  | [] => false
  | c :: _ => c == ':'

/-- Model of `str::starts_with("//")` on the character list of a string. -/
def absHead (s : List Char) : Bool :=
  match s with
  | c :: d :: _ => c == '/' && d == '/'
  | _ => false

/-- The `phase` closure inside `buildifier_cmp` (buck.rs): 1 for strings
starting with `':'`, 2 for strings starting with `"//"`, 0 otherwise. -/
def phase (s : List Char) : Nat :=
  if localHead s then 1 else if absHead s then 2 else 0

/-- Whether a character is one of the separators `[':', '.']` used by
`buildifier_cmp`. -/
def isSep (c : Char) : Bool :=
  c == ':' || c == '.'

/-- Model of `str::split` with the separator set `[':', '.']`: splits the
character list at every separator, keeping empty pieces (as Rust does,
e.g. `"".split` yields `[""]` and `":a".split` yields `["", "a"]`). -/
def splitSeps : List Char → List (List Char)
  | [] => [[]]
  | c :: rest =>
    if isSep c then
      [] :: splitSeps rest
    else
      match splitSeps rest with
      | [] => [[c]]
      | g :: gs => (c :: g) :: gs

/-- Piece-by-piece comparison after splitting on the separators, the
second stage of `buildifier_cmp`. -/
def pieceCmp (a b : List Char) : Ordering :=
  listCmp (listCmp charCmp) (splitSeps a) (splitSeps b)

/-- Model of `buildifier_cmp` (buck.rs lines 989-1004): compare the
phases of the two strings, then compare piece-by-piece after splitting
on `':'` and `'.'`. -/
def buildifier_cmp (a b : String) : Ordering :=
  (compare (phase a.data) (phase b.data)).then (pieceCmp a.data b.data)

/-- Components of a filesystem path, modelling `std::path::Component`
for Unix paths (`Prefix` components do not arise). -/
inductive PathComp
  | root
  | cur
  | par
  | normal (s : String)
deriving DecidableEq, Repr

/-- Model of `PathBuf::parent().is_some()`: false exactly for the empty
path and for a bare root. -/
def hasParent : List PathComp → Bool
  | [] => false
  | [PathComp.root] => false
  | _ => true

/-- Model of `PathBuf::push` for a single component: pushing a root
(an absolute path) replaces the whole path, anything else appends. -/
def pushComp (p : List PathComp) (c : PathComp) : List PathComp :=
  match c with
  | PathComp.root => [PathComp.root]
  | c => p ++ [c]

/-- Model of `normalize_dotdot` (buckify.rs lines 56-69): fold over the
components of the path; a `..` component pops the accumulated path when
that path has a parent, otherwise it is pushed like any other component. -/
def normalize_dotdot (path : List PathComp) : List PathComp :=
  path.foldl
    (fun ret c =>
      match c with
      | PathComp.par =>
        if hasParent ret then ret.dropLast else pushComp ret PathComp.par
      | c => pushComp ret c)
    []

/-- A string starting with `"//"` does not start with `':'`. -/
theorem localHead_eq_false_of_absHead (s : List Char) (h : absHead s = true) :
    localHead s = false := by
  cases s with
  | nil => rfl
  | cons c t =>
    cases t with
    | nil => simp [absHead] at h
    | cons d u =>
      simp only [absHead, Bool.and_eq_true, beq_iff_eq] at h
      simp [localHead, h.1]

/-- Helper: `compare n n = .eq` on naturals. -/
theorem natCompareSelf (n : Nat) : compare n n = Ordering.eq := by
  simp [Nat.compare_eq_eq]

/-- C1 (amended): in `buildifier_cmp`, a string starting with neither
marker sorts before a local reference (leading `':'`), which sorts
before a fully-qualified reference (leading `"//"`); two strings in the
same class are compared piece-by-piece after splitting on the separator
characters `':'` and `'.'`. -/
theorem c1_buildifier_cmp_classes (a b : String) :
    (localHead a.data = false → absHead a.data = false →
      localHead b.data = true → buildifier_cmp a b = Ordering.lt) ∧
    (localHead a.data = false → absHead a.data = false →
      absHead b.data = true → buildifier_cmp a b = Ordering.lt) ∧
    (localHead a.data = true → absHead b.data = true →
      buildifier_cmp a b = Ordering.lt) ∧
    (phase a.data = phase b.data →
      buildifier_cmp a b = pieceCmp a.data b.data) := by
  refine ⟨?_, ?_, ?_, ?_⟩
  · intro h1 h2 h3
    simp [buildifier_cmp, phase, h1, h2, h3]
    rfl
  · intro h1 h2 h3
    have hb := localHead_eq_false_of_absHead b.data h3
    simp [buildifier_cmp, phase, h1, h2, h3, hb]
    rfl
  · intro h1 h2
    have hb := localHead_eq_false_of_absHead b.data h2
    simp [buildifier_cmp, phase, h1, h2, hb]
    rfl
  · intro h
    simp [buildifier_cmp, h, natCompareSelf, Ordering.then]

/-- C1 counterexample: the claim says references starting with `':'`
and `"//"` both sort before strings starting with neither marker; the
code sorts them after such strings. -/
theorem c1_counterexample :
    buildifier_cmp ":a" "a" = Ordering.gt ∧
    buildifier_cmp "//a" "a" = Ordering.gt :=
  ⟨rfl, rfl⟩

/-- C1 witness: the amended class ordering at concrete strings. -/
theorem c1_witness :
    buildifier_cmp "a" ":a" = Ordering.lt ∧
    buildifier_cmp ":a" "//a" = Ordering.lt :=
  ⟨(c1_buildifier_cmp_classes "a" ":a").1 rfl rfl rfl,
   (c1_buildifier_cmp_classes ":a" "//a").2.2.1 rfl rfl⟩

/-- C10 (amended): `normalize_dotdot` collapses `x/../y` to `y` for a
normal component `x`; a leading `..` followed by a normal component is
preserved; but a `..` is removed exactly when the accumulated result has
a parent, so `../..` collapses to the empty path while `/..` keeps its
`..` component. -/
theorem c10_normalize_dotdot_amended :
    (∀ (x : String) (ys : List PathComp),
      normalize_dotdot (PathComp.normal x :: PathComp.par :: ys) =
        normalize_dotdot ys) ∧
    (∀ a : String,
      normalize_dotdot [PathComp.par, PathComp.normal a] =
        [PathComp.par, PathComp.normal a]) ∧
    normalize_dotdot [PathComp.par, PathComp.par] = [] ∧
    normalize_dotdot [PathComp.root, PathComp.par] =
      [PathComp.root, PathComp.par] := by
  refine ⟨?_, ?_, rfl, rfl⟩
  · intro x ys
    rfl
  · intro a
    rfl

/-- C10 counterexample: the claim says leading `..` components that have
nothing to cancel are preserved and that a `..` is removed exactly when
the accumulated result is non-empty; but `../..` collapses to the empty
path (the second `..` cancels the first), and `/..` keeps its `..`
although the accumulated result `/` is non-empty. -/
theorem c10_counterexample :
    normalize_dotdot [PathComp.par, PathComp.par] = [] ∧
    normalize_dotdot [PathComp.root, PathComp.par] =
      [PathComp.root, PathComp.par] :=
  ⟨rfl, rfl⟩

/-- Helper: two characters compare equal exactly when they are equal. -/
theorem charCmp_eq_iff (a b : Char) : charCmp a b = Ordering.eq ↔ a = b := by
  unfold charCmp
  rw [Nat.compare_eq_eq]
  exact ⟨fun h => Char.eq_of_val_eq (UInt32.toNat.inj h), fun h => h ▸ rfl⟩

/-- Helper: `Ordering.then` yields `.eq` exactly when both sides do. -/
theorem then_eq_eq (o p : Ordering) :
    o.then p = Ordering.eq ↔ o = Ordering.eq ∧ p = Ordering.eq := by
  cases o <;> simp [Ordering.then]

/-- Helper: `Ordering.then` short-circuits on a non-`.eq` first stage. -/
theorem then_of_ne_eq (o p : Ordering) (h : o ≠ Ordering.eq) : o.then p = o := by
  cases o <;> simp_all [Ordering.then]

/-- Helper: lexicographic list comparison is `.eq` exactly on equal
lists, given that the element comparator is. -/
theorem listCmp_eq_iff (f : α → α → Ordering)
    (hf : ∀ a b, f a b = Ordering.eq ↔ a = b) :
    ∀ x y : List α, listCmp f x y = Ordering.eq ↔ x = y := by
  intro x
  induction x with
  | nil => intro y; cases y <;> simp [listCmp]
  | cons a as ih =>
    intro y
    cases y with
    | nil => simp [listCmp]
    | cons b bs => simp [listCmp, then_eq_eq, hf, ih]

/-- Helper: string comparison is `.eq` exactly on equal strings. -/
theorem strCmp_eq_iff (a b : String) : strCmp a b = Ordering.eq ↔ a = b := by
  unfold strCmp
  rw [listCmp_eq_iff charCmp charCmp_eq_iff]
  exact ⟨fun h => String.ext h, fun h => h ▸ rfl⟩

namespace Buck

/-- Model of `Name` (buck.rs): a bare target name, a newtype over
`String` whose derived ordering is the plain string ordering. -/
abbrev Name := String

/-- Model of `PlatformExpr` (external `platform` module): the textual
platform expression. -/
abbrev PlatformExpr := String

/-- Model of `RuleRef` (buck.rs): a target label plus an optional
platform expression guard. -/
structure RuleRef where
  target : String
  platform : Option PlatformExpr
deriving DecidableEq, Repr

/-- Comparison of `Option` values in Rust's derived order
(`None < Some`). -/
def optionCmp (f : α → α → Ordering) : Option α → Option α → Ordering
  | none, none => .eq
  | none, some _ => .lt
  | some _, none => .gt
  | some a, some b => f a b

/-- Model of `RuleRef::cmp` (buck.rs lines 58-62): `buildifier_cmp` on
the targets, then the derived order on the platform guards. -/
def RuleRef.cmp (a b : RuleRef) : Ordering :=
  (buildifier_cmp a.target b.target).then (optionCmp strCmp a.platform b.platform)

/-- Model of `Visibility` (buck.rs). -/
inductive Visibility
  | Public
  | Private
  | Custom (vs : List String)
deriving DecidableEq, Repr

/-- Model of `Subtarget` (buck.rs): a target name plus a relative path. -/
structure Subtarget where
  target : Name
  relative : String
deriving DecidableEq, Repr

/-- Model of `SubtargetOrPath` (buck.rs). -/
inductive SubtargetOrPath
  | subtarget (s : Subtarget)
  | path (p : String)
deriving DecidableEq, Repr

/-- Model of `SubtargetOrPath::is_subtarget`. -/
def SubtargetOrPath.is_subtarget : SubtargetOrPath → Bool
  | .subtarget _ => true
  | .path _ => false

/-- Model of `SubtargetOrPath::is_path`. -/
def SubtargetOrPath.is_path : SubtargetOrPath → Bool
  | .subtarget _ => false
  | .path _ => true

/-- Model of `StringOrPath` (buck.rs). -/
inductive StringOrPath
  | str (s : String)
  | path (p : String)
deriving DecidableEq, Repr

/-- Model of `Alias` (buck.rs): `actual` is always a target in the same
package. -/
structure Alias where
  name : Name
  actual : Name
  visibility : Visibility
deriving DecidableEq, Repr

/-- Model of `HttpArchive` (buck.rs); `sub_targets` is a
`BTreeSet<BuckPath>` and `sort_key` a dedicated sorting name. -/
structure HttpArchive where
  name : Name
  sha256 : String
  strip_prefix : String
  sub_targets : List String
  urls : List String
  visibility : Visibility
  sort_key : Name
deriving DecidableEq, Repr

/-- Model of `GitFetch` (buck.rs). -/
structure GitFetch where
  name : Name
  repo : String
  rev : String
  visibility : Visibility
deriving DecidableEq, Repr

/-- Model of `Common` (buck.rs). -/
structure Common where
  name : Name
  visibility : Visibility
  licenses : List String
  compatible_with : List RuleRef
deriving DecidableEq, Repr

/-- Model of `PlatformRustCommon` (buck.rs): the platform-dependent
attribute record; `BTreeSet`/`BTreeMap`/`Vec` fields become lists. -/
structure PlatformRustCommon where
  srcs : List String
  mapped_srcs : List (SubtargetOrPath × String)
  rustc_flags : List String
  features : List String
  deps : List RuleRef
  named_deps : List (String × RuleRef)
  env : List (String × StringOrPath)
  link_style : Option String
  preferred_linkage : Option String
deriving DecidableEq, Repr

/-- Model of `Default::default()` for `PlatformRustCommon`. -/
def prcDefault : PlatformRustCommon :=
  ⟨[], [], [], [], [], [], [], none, none⟩

/-- Model of `RustCommon` (buck.rs); the edition and platform names are
kept as strings. -/
structure RustCommon where
  common : Common
  krate : String
  crate_root : String
  edition : String
  base : PlatformRustCommon
  platform : List (String × PlatformRustCommon)
deriving DecidableEq, Repr

/-- Model of `RustLibrary` (buck.rs). -/
structure RustLibrary where
  common : RustCommon
  proc_macro : Bool
  dlopen_enable : Bool
  python_ext : Option String
  linkable_alias : Option String
deriving DecidableEq, Repr

/-- Model of `RustBinary` (buck.rs). -/
structure RustBinary where
  common : RustCommon
deriving DecidableEq, Repr

/-- Model of `BuildscriptGenrule` (buck.rs); the semver `Version` is
kept as a string. -/
structure BuildscriptGenrule where
  name : Name
  buildscript_rule : Name
  package_name : String
  version : String
  features : List String
  cfgs : List String
  env : List (String × String)
  path_env : List (String × String)
  args_env : List (String × String)
deriving DecidableEq, Repr

/-- Model of `SetOrMap` (external `collection` module, by its use in
buck.rs): either a set or a string-keyed map, empty when the underlying
collection is. -/
inductive SetOrMap (α : Type)
  | set (xs : List α)
  | map (xs : List (String × α))
deriving DecidableEq, Repr

/-- Emptiness of a `SetOrMap`, modelling its `is_empty`. -/
def SetOrMap.isEmptySM : SetOrMap α → Bool
  | .set xs => xs.isEmpty
  | .map xs => xs.isEmpty

/-- Model of `CxxLibrary` (buck.rs). -/
structure CxxLibrary where
  common : Common
  srcs : List SubtargetOrPath
  headers : List SubtargetOrPath
  exported_headers : SetOrMap SubtargetOrPath
  compiler_flags : List String
  preprocessor_flags : List String
  header_namespace : Option String
  include_directories : List SubtargetOrPath
  deps : List RuleRef
  preferred_linkage : Option String
deriving DecidableEq, Repr

/-- Model of `PrebuiltCxxLibrary` (buck.rs). -/
structure PrebuiltCxxLibrary where
  common : Common
  static_lib : SubtargetOrPath
deriving DecidableEq, Repr

/-- Model of the `Rule` enum (buck.rs lines 838-849). -/
inductive Rule
  | alias (a : Alias)
  | httpArchive (h : HttpArchive)
  | gitFetch (g : GitFetch)
  | binary (b : RustBinary)
  | library (l : RustLibrary)
  | buildscriptBinary (b : RustBinary)
  | buildscriptGenrule (g : BuildscriptGenrule)
  | cxxLibrary (c : CxxLibrary)
  | prebuiltCxxLibrary (p : PrebuiltCxxLibrary)
  | rootPackage (l : RustLibrary)
deriving DecidableEq, Repr

/-- Model of `Rule::get_name`. -/
def Rule.get_name : Rule → Name
  | .alias a => a.name
  | .httpArchive h => h.name
  | .gitFetch g => g.name
  | .binary b => b.common.common.name
  | .library l => l.common.common.name
  | .buildscriptBinary b => b.common.common.name
  | .buildscriptGenrule g => g.name
  | .cxxLibrary c => c.common.name
  | .prebuiltCxxLibrary p => p.common.name
  | .rootPackage l => l.common.common.name

/-- Model of `PartialEq for Rule` (buck.rs lines 853-857): equality of
names only. -/
def Rule.eqName (r s : Rule) : Bool :=
  r.get_name == s.get_name

/-- Model of the `RuleSortKey` enum inside `rule_sort_key` (buck.rs);
the derived ordering compares the variant index first (`GitFetch` below
`Other` below `RootPackage`), then the fields lexicographically. -/
inductive RuleSortKey
  | gitFetch (n : Name)
  | other (n : Name) (k : Nat)
  | rootPackage
deriving DecidableEq, Repr

/-- Model of `rule_sort_key` (buck.rs lines 865-891). -/
def rule_sort_key : Rule → RuleSortKey
  | .alias a => .other a.actual 0
  | .httpArchive h => .other h.sort_key 1
  | .gitFetch g => .gitFetch g.name
  | .binary b => .other (Rule.get_name (.binary b)) 2
  | .library l => .other (Rule.get_name (.library l)) 2
  | .buildscriptBinary b => .other (Rule.get_name (.buildscriptBinary b)) 2
  | .buildscriptGenrule g => .other (Rule.get_name (.buildscriptGenrule g)) 2
  | .cxxLibrary c => .other (Rule.get_name (.cxxLibrary c)) 2
  | .prebuiltCxxLibrary p => .other (Rule.get_name (.prebuiltCxxLibrary p)) 2
  | .rootPackage _ => .rootPackage

/-- Derived `Ord` of `RuleSortKey`: variant index, then fields. -/
def keyCmp : RuleSortKey → RuleSortKey → Ordering
  | .gitFetch a, .gitFetch b => strCmp a b
  | .gitFetch _, _ => .lt
  | _, .gitFetch _ => .gt
  | .other a i, .other b j => (strCmp a b).then (compare i j)
  | .other _ _, .rootPackage => .lt
  | .rootPackage, .other _ _ => .gt
  | .rootPackage, .rootPackage => .eq

/-- Model of `Ord for Rule` (buck.rs lines 893-897). -/
def Rule.cmp (r s : Rule) : Ordering :=
  keyCmp (rule_sort_key r) (rule_sort_key s)

/-- Membership-list model of `BTreeSet<Rule>::insert`: when an element
comparing `Ordering::Equal` is already present, the set keeps the
existing element and drops the new one; otherwise the element is added. -/
def rulesInsert (l : List Rule) (r : Rule) : List Rule :=
  if l.any (fun x => Rule.cmp x r == Ordering.eq) then l else l ++ [r]

/-- Sample library declaration used in concrete instances. -/
def sampleLib (n : Name) (k : String) : RustLibrary :=
  { common :=
      { common :=
          { name := n, visibility := .Private, licenses := [], compatible_with := [] },
        krate := k,
        crate_root := "lib.rs",
        edition := "2021",
        base := prcDefault,
        platform := [] },
    proc_macro := false,
    dlopen_enable := false,
    python_ext := none,
    linkable_alias := none }

/-- C3 (amended): `PartialEq` on `Rule` is equality of declaration
names; but membership in the collected `BTreeSet` is governed by the
sort-key ordering, and inserting a later `Rule` whose sort key compares
equal to an already-stored one keeps the earlier value (no override). -/
theorem c3_rule_identity :
    (∀ r s : Rule, Rule.eqName r s = true ↔ Rule.get_name r = Rule.get_name s) ∧
    (∀ (l : List Rule) (r : Rule),
      (∃ x ∈ l, Rule.cmp x r = Ordering.eq) → rulesInsert l r = l) := by
  constructor
  · intro r s
    simp [Rule.eqName]
  · rintro l r ⟨x, hx, hcmp⟩
    unfold rulesInsert
    rw [if_pos]
    exact List.any_eq_true.mpr ⟨x, hx, by rw [hcmp]; rfl⟩

/-- C3 witness: inserting a second library with the same name keeps the
first. -/
theorem c3_witness :
    rulesInsert [Rule.library (sampleLib "a" "k1")] (Rule.library (sampleLib "a" "k2")) =
      [Rule.library (sampleLib "a" "k1")] :=
  c3_rule_identity.2 _ _
    ⟨Rule.library (sampleLib "a" "k1"), List.mem_singleton.mpr rfl, by decide⟩

/-- C3 counterexample: an alias named `a` (referencing `z`) and a
library named `a` are `PartialEq`-equal yet occupy distinct sort-key
slots (so set membership is not by name); inserting a later rule with
the same name does not override the stored one. -/
theorem c3_counterexample :
    (Rule.eqName (Rule.alias { name := "a", actual := "z", visibility := .Public })
        (Rule.library (sampleLib "a" "k1")) = true ∧
      Rule.cmp (Rule.alias { name := "a", actual := "z", visibility := .Public })
        (Rule.library (sampleLib "a" "k1")) ≠ Ordering.eq) ∧
    rulesInsert [Rule.library (sampleLib "a" "k1")] (Rule.library (sampleLib "a" "k2")) =
      [Rule.library (sampleLib "a" "k1")] ∧
    Rule.library (sampleLib "a" "k1") ≠ Rule.library (sampleLib "a" "k2") := by
  decide

/-- Whether a rule is a `GitFetch` declaration. -/
def Rule.isGit : Rule → Bool
  | .gitFetch _ => true
  | _ => false

/-- Whether a rule is the root-package declaration. -/
def Rule.isRoot : Rule → Bool
  | .rootPackage _ => true
  | _ => false

/-- Whether a rule is an `Alias` declaration. -/
def Rule.isAlias : Rule → Bool
  | .alias _ => true
  | _ => false

/-- The name component of a rule's sort key: the referenced name for an
alias, the dedicated `sort_key` for an `HttpArchive`, the rule's own
name otherwise. -/
def Rule.sortName : Rule → Name
  | .alias a => a.actual
  | .httpArchive h => h.sort_key
  | r => r.get_name

/-- The integer tiebreak component of a rule's sort key. -/
def Rule.sortTag : Rule → Nat
  | .alias _ => 0
  | .httpArchive _ => 1
  | _ => 2

/-- Helper: a string compares equal to itself. -/
theorem strCmp_self (s : String) : strCmp s s = Ordering.eq :=
  (strCmp_eq_iff s s).mpr rfl

/-- Helper: rules that are neither git-fetch nor the root package have
an `Other` sort key built from their sort name and tag. -/
theorem rule_sort_key_shape (r : Rule) (hg : r.isGit = false) (hr : r.isRoot = false) :
    rule_sort_key r = RuleSortKey.other r.sortName r.sortTag := by
  cases r <;> simp_all [rule_sort_key, Rule.sortName, Rule.sortTag, Rule.isGit, Rule.isRoot]

/-- Helper: a non-alias rule has a positive sort tag. -/
theorem sortTag_pos (r : Rule) (h : r.isAlias = false) : 0 < r.sortTag := by
  cases r <;> simp_all [Rule.sortTag, Rule.isAlias]

/-- C8 (amended): git-fetch declarations sort below every other kind,
the root-package declaration sorts last, an alias sorts by the name it
references and strictly precedes the referenced (non-alias) declaration,
no rule with a different sort name separates an alias from its
referenced declaration, and the remaining declarations sort by their
sort name — the rule's own name except for `HttpArchive`, which uses its
dedicated `sort_key` field. -/
theorem c8_rule_sort_contract :
    (∀ g r : Rule, g.isGit = true → r.isGit = false →
      Rule.cmp g r = Ordering.lt) ∧
    (∀ r s : Rule, r.isRoot = false → s.isRoot = true →
      Rule.cmp r s = Ordering.lt) ∧
    (∀ (a : Alias) (r : Rule), r.isGit = false → r.isRoot = false →
      r.isAlias = false → r.sortName = a.actual →
      Rule.cmp (Rule.alias a) r = Ordering.lt) ∧
    (∀ (a : Alias) (r x : Rule), r.isGit = false → r.isRoot = false →
      r.sortName = a.actual → x.sortName ≠ a.actual →
      Rule.cmp x (Rule.alias a) = Rule.cmp x r) ∧
    (∀ r s : Rule, r.isGit = false → s.isGit = false →
      r.isRoot = false → s.isRoot = false → r.sortName ≠ s.sortName →
      Rule.cmp r s = strCmp r.sortName s.sortName) := by
  refine ⟨?_, ?_, ?_, ?_, ?_⟩
  · intro g r hg hr
    cases g <;> simp_all [Rule.isGit]
    cases r <;> simp_all [Rule.cmp, rule_sort_key, keyCmp, Rule.isGit]
  · intro r s hr hs
    cases s <;> simp_all [Rule.isRoot]
    cases r <;> simp_all [Rule.cmp, rule_sort_key, keyCmp, Rule.isRoot]
  · intro a r hg hr ha hname
    rw [Rule.cmp, rule_sort_key_shape r hg hr, hname]
    show keyCmp (.other a.actual 0) (.other a.actual r.sortTag) = Ordering.lt
    rw [keyCmp, strCmp_self, Ordering.then]
    exact Nat.compare_eq_lt.mpr (sortTag_pos r ha)
  · intro a r x hg hr hname hx
    by_cases hxg : x.isGit = true
    · cases x <;> simp_all [Rule.isGit]
      cases r <;> simp_all [Rule.cmp, rule_sort_key, keyCmp, Rule.isGit, Rule.isRoot]
    · by_cases hxr : x.isRoot = true
      · cases x <;> simp_all [Rule.isRoot]
        cases r <;> simp_all [Rule.cmp, rule_sort_key, keyCmp, Rule.isRoot, Rule.isGit]
      · rw [Rule.cmp, Rule.cmp, rule_sort_key_shape r hg hr, hname,
          rule_sort_key_shape x (Bool.not_eq_true _ ▸ hxg) (Bool.not_eq_true _ ▸ hxr)]
        show keyCmp (.other x.sortName x.sortTag) (.other a.actual 0) =
          keyCmp (.other x.sortName x.sortTag) (.other a.actual r.sortTag)
        rw [keyCmp, keyCmp]
        have hne : strCmp x.sortName a.actual ≠ Ordering.eq := by
          intro hcontra
          exact hx ((strCmp_eq_iff _ _).mp hcontra)
        rw [then_of_ne_eq _ _ hne, then_of_ne_eq _ _ hne]
  · intro r s hrg hsg hrr hsr hne
    rw [Rule.cmp, rule_sort_key_shape r hrg hrr, rule_sort_key_shape s hsg hsr]
    show (strCmp r.sortName s.sortName).then (compare r.sortTag s.sortTag) =
      strCmp r.sortName s.sortName
    exact then_of_ne_eq _ _ (fun hcontra => hne ((strCmp_eq_iff _ _).mp hcontra))

/-- Sample http-archive declaration whose `sort_key` differs from its
name. -/
def archEx : HttpArchive :=
  { name := "zzz", sha256 := "", strip_prefix := "", sub_targets := [],
    urls := [], visibility := .Public, sort_key := "aaa" }

/-- C8 counterexample: an `HttpArchive` named `zzz` with `sort_key`
`aaa` sorts before a library named `mmm`, although its own name is
greater — remaining declarations do not all sort by their own name. -/
theorem c8_counterexample :
    Rule.cmp (Rule.httpArchive archEx) (Rule.library (sampleLib "mmm" "k")) =
      Ordering.lt ∧
    strCmp (Rule.get_name (Rule.httpArchive archEx))
      (Rule.get_name (Rule.library (sampleLib "mmm" "k"))) = Ordering.gt := by
  decide

/-- C8 witness: the amended ordering at concrete declarations. -/
theorem c8_witness :
    Rule.cmp (Rule.library (sampleLib "a" "k")) (Rule.library (sampleLib "b" "k")) =
      strCmp "a" "b" :=
  c8_rule_sort_contract.2.2.2.2 _ _ rfl rfl rfl rfl (by decide)

/-- Rendered starlark value appearing inside a platform bucket: the
per-platform `PlatformRustCommon` record only ever renders strings,
string lists and string-keyed string maps. -/
inductive FlatVal
  | str (s : String)
  | strs (xs : List String)
  | smap (xs : List (String × String))
deriving DecidableEq, Repr

/-- Rendered starlark value of a top-level attribute. -/
inductive Val
  | str (s : String)
  | vbool (b : Bool)
  | strs (xs : List String)
  | smap (xs : List (String × String))
  | platDict (xs : List (String × List (String × FlatVal)))
  | vnone
deriving DecidableEq, Repr

/-- Whether a rendered top-level value is an empty collection or an
absent optional. -/
def isEmptyValB : Val → Bool
  | .strs xs => xs.isEmpty
  | .smap xs => xs.isEmpty
  | .platDict xs => xs.isEmpty
  | .vnone => true
  | _ => false

/-- Whether a rendered platform-bucket value is an empty collection. -/
def isEmptyFlat : FlatVal → Bool
  | .strs xs => xs.isEmpty
  | .smap xs => xs.isEmpty
  | _ => false

/-- Rendering of a `RuleRef` (serializes as its target string). -/
def serRef (r : RuleRef) : String :=
  r.target

/-- Rendering of a `SubtargetOrPath` as a string. -/
def serSubtargetOrPath : SubtargetOrPath → String
  | .subtarget s => ":" ++ s.target ++ "[" ++ s.relative ++ "]"
  | .path p => p

/-- Rendering of a `StringOrPath` as a string. -/
def serStringOrPath : StringOrPath → String
  | .str s => s
  | .path p => p

/-- Rendering of `Visibility` (buck.rs lines 188-196): `Public` becomes
`["PUBLIC"]`, `Private` becomes the empty list. -/
def serializeVisibility : Visibility → Val
  | .Public => .strs ["PUBLIC"]
  | .Private => .strs []
  | .Custom vs => .strs vs

/-- Entry list for a conditionally emitted attribute (`if !x.is_empty()`
/ `if let Some(..)` patterns in the serializers). -/
def entryIf (b : Bool) (k : String) (v : β) : List (String × β) :=
  if b then [(k, v)] else []

/-- Entry list for an unconditionally emitted attribute. -/
def entryAlways (k : String) (v : β) : List (String × β) :=
  [(k, v)]

/-- Entry list for an optional attribute emitted only when present. -/
def entryOptWith (o : Option String) (k : String) (mk : String → β) :
    List (String × β) :=
  match o with
  | some s => [(k, mk s)]
  | none => []

/-- Model of `PlatformRustCommon::serialize` (buck.rs lines 314-357):
every field is emitted only when non-empty / present, in the fixed
order srcs, env, features, link_style, mapped_srcs, named_deps,
preferred_linkage, rustc_flags, deps. -/
def serializePlatformRustCommon (p : PlatformRustCommon) : List (String × FlatVal) :=
  match p with
  | ⟨srcs, mapped_srcs, rustc_flags, features, deps, named_deps, env, ls, pl⟩ =>
    entryIf (!srcs.isEmpty) "srcs" (.strs srcs)
    ++ entryIf (!env.isEmpty) "env"
      (.smap (env.map (fun kv => (kv.1, serStringOrPath kv.2))))
    ++ entryIf (!features.isEmpty) "features" (.strs features)
    ++ entryOptWith ls "link_style" FlatVal.str
    ++ entryIf (!mapped_srcs.isEmpty) "mapped_srcs"
      (.smap (mapped_srcs.map (fun kv => (serSubtargetOrPath kv.1, kv.2))))
    ++ entryIf (!named_deps.isEmpty) "named_deps"
      (.smap (named_deps.map (fun kv => (kv.1, serRef kv.2))))
    ++ entryOptWith pl "preferred_linkage" FlatVal.str
    ++ entryIf (!rustc_flags.isEmpty) "rustc_flags" (.strs rustc_flags)
    ++ entryIf (!deps.isEmpty) "deps" (.strs (deps.map serRef))

/-- Model of `Alias::serialize` (buck.rs lines 206-219): name, actual
(as a `:`-label) and visibility, all unconditional. -/
def serializeAlias (a : Alias) : List (String × Val) :=
  match a with
  | ⟨name, actual, visibility⟩ =>
    entryAlways "name" (.str name)
    ++ entryAlways "actual" (.str (":" ++ actual))
    ++ entryAlways "visibility" (serializeVisibility visibility)

/-- Model of `HttpArchive::serialize` (buck.rs lines 240-262):
`sub_targets` is conditional, `urls` and `visibility` are not. -/
def serializeHttpArchive (h : HttpArchive) : List (String × Val) :=
  match h with
  | ⟨name, sha256, sp, sub_targets, urls, visibility, _sk⟩ =>
    entryAlways "name" (.str name)
    ++ entryAlways "sha256" (.str sha256)
    ++ entryAlways "strip_prefix" (.str sp)
    ++ entryIf (!sub_targets.isEmpty) "sub_targets" (.strs sub_targets)
    ++ entryAlways "urls" (.strs urls)
    ++ entryAlways "visibility" (serializeVisibility visibility)

/-- Model of `GitFetch::serialize` (buck.rs lines 272-287). -/
def serializeGitFetch (g : GitFetch) : List (String × Val) :=
  match g with
  | ⟨name, repo, rev, visibility⟩ =>
    entryAlways "name" (.str name)
    ++ entryAlways "repo" (.str repo)
    ++ entryAlways "rev" (.str rev)
    ++ entryAlways "visibility" (serializeVisibility visibility)

/-- Model of `RustLibrary::serialize` (buck.rs lines 432-522). -/
def serializeRustLibrary (l : RustLibrary) : List (String × Val) :=
  match l with
  | ⟨⟨⟨name, visibility, licenses, compatible_with⟩, krate, cr, edition,
      ⟨srcs, mapped_srcs, rustc_flags, features, deps, named_deps, env, ls, pl⟩,
      platform⟩, pm, de, pe, la⟩ =>
    entryAlways "name" (.str name)
    ++ entryIf (!srcs.isEmpty) "srcs" (.strs srcs)
    ++ entryIf (!compatible_with.isEmpty) "compatible_with"
      (.strs (compatible_with.map serRef))
    ++ entryAlways "crate" (.str krate)
    ++ entryAlways "crate_root" (.str cr)
    ++ entryIf de "dlopen_enable" (.vbool true)
    ++ entryAlways "edition" (.str edition)
    ++ entryIf (!env.isEmpty) "env"
      (.smap (env.map (fun kv => (kv.1, serStringOrPath kv.2))))
    ++ entryIf (!features.isEmpty) "features" (.strs features)
    ++ entryIf (!licenses.isEmpty) "licenses" (.strs licenses)
    ++ entryOptWith ls "link_style" Val.str
    ++ entryOptWith la "linkable_alias" Val.str
    ++ entryIf (!mapped_srcs.isEmpty) "mapped_srcs"
      (.smap (mapped_srcs.map (fun kv => (serSubtargetOrPath kv.1, kv.2))))
    ++ entryIf (!named_deps.isEmpty) "named_deps"
      (.smap (named_deps.map (fun kv => (kv.1, serRef kv.2))))
    ++ entryIf (!platform.isEmpty) "platform"
      (.platDict (platform.map (fun kv => (kv.1, serializePlatformRustCommon kv.2))))
    ++ entryOptWith pl "preferred_linkage" Val.str
    ++ entryIf pm "proc_macro" (.vbool true)
    ++ entryOptWith pe "python_ext" Val.str
    ++ entryIf (!rustc_flags.isEmpty) "rustc_flags" (.strs rustc_flags)
    ++ entryAlways "visibility" (serializeVisibility visibility)
    ++ entryIf (!deps.isEmpty) "deps" (.strs (deps.map serRef))

/-- Model of `RustBinary::serialize` (buck.rs lines 529-602). -/
def serializeRustBinary (b : RustBinary) : List (String × Val) :=
  match b with
  | ⟨⟨⟨name, visibility, licenses, compatible_with⟩, krate, cr, edition,
      ⟨srcs, mapped_srcs, rustc_flags, features, deps, named_deps, env, ls, pl⟩,
      platform⟩⟩ =>
    entryAlways "name" (.str name)
    ++ entryIf (!srcs.isEmpty) "srcs" (.strs srcs)
    ++ entryIf (!compatible_with.isEmpty) "compatible_with"
      (.strs (compatible_with.map serRef))
    ++ entryAlways "crate" (.str krate)
    ++ entryAlways "crate_root" (.str cr)
    ++ entryAlways "edition" (.str edition)
    ++ entryIf (!env.isEmpty) "env"
      (.smap (env.map (fun kv => (kv.1, serStringOrPath kv.2))))
    ++ entryIf (!features.isEmpty) "features" (.strs features)
    ++ entryIf (!licenses.isEmpty) "licenses" (.strs licenses)
    ++ entryOptWith ls "link_style" Val.str
    ++ entryIf (!mapped_srcs.isEmpty) "mapped_srcs"
      (.smap (mapped_srcs.map (fun kv => (serSubtargetOrPath kv.1, kv.2))))
    ++ entryIf (!named_deps.isEmpty) "named_deps"
      (.smap (named_deps.map (fun kv => (kv.1, serRef kv.2))))
    ++ entryIf (!platform.isEmpty) "platform"
      (.platDict (platform.map (fun kv => (kv.1, serializePlatformRustCommon kv.2))))
    ++ entryOptWith pl "preferred_linkage" Val.str
    ++ entryIf (!rustc_flags.isEmpty) "rustc_flags" (.strs rustc_flags)
    ++ entryAlways "visibility" (serializeVisibility visibility)
    ++ entryIf (!deps.isEmpty) "deps" (.strs (deps.map serRef))

/-- Model of `BuildscriptGenrule::serialize` (buck.rs lines 618-652). -/
def serializeBuildscriptGenrule (g : BuildscriptGenrule) : List (String × Val) :=
  match g with
  | ⟨name, br, package_name, version, features, cfgs, env, path_env, args_env⟩ =>
    entryAlways "name" (.str name)
    ++ entryAlways "package_name" (.str package_name)
    ++ entryIf (!args_env.isEmpty) "args_env" (.smap args_env)
    ++ entryAlways "buildscript_rule" (.str (":" ++ br))
    ++ entryIf (!cfgs.isEmpty) "cfgs" (.strs cfgs)
    ++ entryIf (!env.isEmpty) "env" (.smap env)
    ++ entryIf (!features.isEmpty) "features" (.strs features)
    ++ entryIf (!path_env.isEmpty) "path_env" (.smap path_env)
    ++ entryAlways "version" (.str version)

/-- Rendering of `SetOrMap<SubtargetOrPath>` (used by
`exported_headers`). -/
def serializeSetOrMap (sm : SetOrMap SubtargetOrPath) : Val :=
  match sm with
  | .set xs => .strs (xs.map serSubtargetOrPath)
  | .map xs => .smap (xs.map (fun kv => (kv.1, serSubtargetOrPath kv.2)))

/-- Rendering of one include directory as a preprocessor flag
(buck.rs lines 784-795). -/
def includeDirFlag : SubtargetOrPath → String
  | .subtarget s => "-I$(location :" ++ s.target ++ ")/" ++ s.relative
  | .path p => "-I" ++ p

/-- Model of `CxxLibrary::serialize` (buck.rs lines 669-736): `srcs`,
`headers`, `preferred_linkage` and `visibility` are unconditional;
`include_directories` keeps only path entries and is emitted when one
exists; `preprocessor_flags` prepends subtarget include directories and
is emitted when either part is non-empty. -/
def serializeCxxLibrary (c : CxxLibrary) : List (String × Val) :=
  match c with
  | ⟨⟨name, visibility, licenses, compatible_with⟩, srcs, headers, exported_headers,
      compiler_flags, pp_flags, header_namespace, include_dirs, deps, pl⟩ =>
    entryAlways "name" (.str name)
    ++ entryAlways "srcs" (.strs (srcs.map serSubtargetOrPath))
    ++ entryAlways "headers" (.strs (headers.map serSubtargetOrPath))
    ++ entryOptWith header_namespace "header_namespace" Val.str
    ++ entryIf (!SetOrMap.isEmptySM exported_headers) "exported_headers"
      (serializeSetOrMap exported_headers)
    ++ entryIf (!compatible_with.isEmpty) "compatible_with"
      (.strs (compatible_with.map serRef))
    ++ entryIf (!compiler_flags.isEmpty) "compiler_flags" (.strs compiler_flags)
    ++ entryIf (include_dirs.any SubtargetOrPath.is_path) "include_directories"
      (.strs ((include_dirs.filter SubtargetOrPath.is_path).map serSubtargetOrPath))
    ++ entryIf (!licenses.isEmpty) "licenses" (.strs licenses)
    ++ entryAlways "preferred_linkage"
      (match pl with | some s => Val.str s | none => Val.vnone)
    ++ entryIf (!pp_flags.isEmpty || include_dirs.any SubtargetOrPath.is_subtarget)
      "preprocessor_flags"
      (.strs (((include_dirs.filter SubtargetOrPath.is_subtarget).map includeDirFlag)
        ++ pp_flags))
    ++ entryAlways "visibility" (serializeVisibility visibility)
    ++ entryIf (!deps.isEmpty) "deps" (.strs (deps.map serRef))

/-- Model of `PrebuiltCxxLibrary::serialize` (buck.rs lines 811-834). -/
def serializePrebuiltCxxLibrary (p : PrebuiltCxxLibrary) : List (String × Val) :=
  match p with
  | ⟨⟨name, visibility, licenses, compatible_with⟩, sl⟩ =>
    entryAlways "name" (.str name)
    ++ entryIf (!compatible_with.isEmpty) "compatible_with"
      (.strs (compatible_with.map serRef))
    ++ entryIf (!licenses.isEmpty) "licenses" (.strs licenses)
    ++ entryAlways "static_lib" (.str (serSubtargetOrPath sl))
    ++ entryAlways "visibility" (serializeVisibility visibility)

/-- Omission property of a rendered entry list: every entry whose value
is an empty collection or absent optional has its key in the allowed
exception list. -/
def OmitsEmpties (allowed : List String) (es : List (String × Val)) : Prop :=
  ∀ kv ∈ es, isEmptyValB kv.2 = true → kv.1 ∈ allowed

/-- Strict omission property of a platform-bucket entry list: no entry
has an empty collection as its value. -/
def OmitsF (es : List (String × FlatVal)) : Prop :=
  ∀ kv ∈ es, isEmptyFlat kv.2 = false

/-- Helper: omission is preserved by concatenation. -/
theorem omits_append {A : List String} {es fs : List (String × Val)}
    (he : OmitsEmpties A es) (hf : OmitsEmpties A fs) :
    OmitsEmpties A (es ++ fs) := by
  intro kv hm
  rcases List.mem_append.mp hm with h | h
  exacts [he kv h, hf kv h]

/-- Helper: an unconditional string entry is never empty. -/
theorem omits_always_str {A : List String} {k s : String} :
    OmitsEmpties A (entryAlways k (Val.str s)) := by
  intro kv hm hempty
  simp [entryAlways] at hm
  subst hm
  simp [isEmptyValB] at hempty

/-- Helper: an unconditional entry with an allowed key is fine. -/
theorem omits_always_allowed {A : List String} {k : String} {v : Val}
    (h : k ∈ A) : OmitsEmpties A (entryAlways k v) := by
  intro kv hm _
  simp [entryAlways] at hm
  subst hm
  exact h

/-- Helper: a conditional entry whose guard forces a non-empty value is
fine. -/
theorem omits_if_nonempty {A : List String} {b : Bool} {k : String} {v : Val}
    (h : b = true → isEmptyValB v = false) :
    OmitsEmpties A (entryIf b k v) := by
  intro kv hm hempty
  cases hb : b
  · simp [entryIf, hb] at hm
  · simp [entryIf, hb] at hm
    subst hm
    rw [h hb] at hempty
    cases hempty

/-- Helper: an optional string entry is only emitted with a string
value, which is never empty. -/
theorem omits_opt_str {A : List String} {o : Option String} {k : String} :
    OmitsEmpties A (entryOptWith o k Val.str) := by
  intro kv hm hempty
  cases o with
  | none => simp [entryOptWith] at hm
  | some s =>
    simp [entryOptWith] at hm
    subst hm
    simp [isEmptyValB] at hempty

/-- Helper: a string list value is non-empty when its source list is. -/
theorem nonempty_strs {xs : List String} (hb : (!xs.isEmpty) = true) :
    isEmptyValB (.strs xs) = false := by
  simpa [isEmptyValB] using hb

/-- Helper: a mapped string list value is non-empty when its source
list is. -/
theorem nonempty_strs_map {α : Type} {xs : List α} {f : α → String}
    (hb : (!xs.isEmpty) = true) : isEmptyValB (.strs (xs.map f)) = false := by
  cases xs with
  | nil => simp at hb
  | cons x xs => rfl

/-- Helper: a mapped string map value is non-empty when its source list
is. -/
theorem nonempty_smap_map {α : Type} {xs : List α} {f : α → String × String}
    (hb : (!xs.isEmpty) = true) : isEmptyValB (.smap (xs.map f)) = false := by
  cases xs with
  | nil => simp at hb
  | cons x xs => rfl

/-- Helper: a platform dict value is non-empty when its source map is. -/
theorem nonempty_platdict {xs : List (String × PlatformRustCommon)}
    {f : String × PlatformRustCommon → String × List (String × FlatVal)}
    (hb : (!xs.isEmpty) = true) : isEmptyValB (.platDict (xs.map f)) = false := by
  cases xs with
  | nil => simp at hb
  | cons x xs => rfl

/-- Helper (FlatVal): omission is preserved by concatenation. -/
theorem omitsF_append {es fs : List (String × FlatVal)}
    (he : OmitsF es) (hf : OmitsF fs) : OmitsF (es ++ fs) := by
  intro kv hm
  rcases List.mem_append.mp hm with h | h
  exacts [he kv h, hf kv h]

/-- Helper (FlatVal): a conditional entry with a guard forcing a
non-empty value. -/
theorem omitsF_if_nonempty {b : Bool} {k : String} {v : FlatVal}
    (h : b = true → isEmptyFlat v = false) : OmitsF (entryIf b k v) := by
  intro kv hm
  cases hb : b
  · simp [entryIf, hb] at hm
  · simp [entryIf, hb] at hm
    subst hm
    exact h hb

/-- Helper (FlatVal): an optional string entry. -/
theorem omitsF_opt_str {o : Option String} {k : String} :
    OmitsF (entryOptWith o k FlatVal.str) := by
  intro kv hm
  cases o with
  | none => simp [entryOptWith] at hm
  | some s =>
    simp [entryOptWith] at hm
    subst hm
    rfl

/-- Helper (FlatVal): a string list value from a non-empty list. -/
theorem nonemptyF_strs {xs : List String} (hb : (!xs.isEmpty) = true) :
    isEmptyFlat (.strs xs) = false := by
  simpa [isEmptyFlat] using hb

/-- Helper (FlatVal): a mapped string list value. -/
theorem nonemptyF_strs_map {α : Type} {xs : List α} {f : α → String}
    (hb : (!xs.isEmpty) = true) : isEmptyFlat (.strs (xs.map f)) = false := by
  cases xs with
  | nil => simp at hb
  | cons x xs => rfl

/-- Helper (FlatVal): a mapped string map value. -/
theorem nonemptyF_smap_map {α : Type} {xs : List α} {f : α → String × String}
    (hb : (!xs.isEmpty) = true) : isEmptyFlat (.smap (xs.map f)) = false := by
  cases xs with
  | nil => simp at hb
  | cons x xs => rfl

/-- Helper: a direct string map value from a non-empty list. -/
theorem nonempty_smap {xs : List (String × String)}
    (hb : (!xs.isEmpty) = true) : isEmptyValB (.smap xs) = false := by
  simpa [isEmptyValB] using hb

/-- Helper: rendering a non-empty `SetOrMap` is non-empty. -/
theorem nonempty_setOrMap {sm : SetOrMap SubtargetOrPath}
    (hb : (!SetOrMap.isEmptySM sm) = true) :
    isEmptyValB (serializeSetOrMap sm) = false := by
  cases sm with
  | set xs => cases xs with
    | nil => simp [SetOrMap.isEmptySM] at hb
    | cons x xs => rfl
  | map xs => cases xs with
    | nil => simp [SetOrMap.isEmptySM] at hb
    | cons x xs => rfl

/-- Helper: the filtered-and-mapped list from a satisfied `any` guard is
non-empty. -/
theorem nonempty_filter_map {α : Type} {l : List α} {p : α → Bool} {f : α → String}
    (hb : l.any p = true) :
    isEmptyValB (.strs ((l.filter p).map f)) = false := by
  obtain ⟨x, hx, hpx⟩ := List.any_eq_true.mp hb
  have hne : l.filter p ≠ [] := by
    intro hc
    have : x ∈ l.filter p := List.mem_filter.mpr ⟨hx, hpx⟩
    simp [hc] at this
  cases hf : l.filter p with
  | nil => exact absurd hf hne
  | cons y ys => simp [isEmptyValB, hf]

/-- Helper: the `preprocessor_flags` value is non-empty when its guard
holds. -/
theorem nonempty_pp_flags {l : List SubtargetOrPath} {pp : List String}
    (hb : (!pp.isEmpty || l.any SubtargetOrPath.is_subtarget) = true) :
    isEmptyValB
      (.strs (((l.filter SubtargetOrPath.is_subtarget).map includeDirFlag) ++ pp)) =
      false := by
  rcases Bool.or_eq_true _ _ |>.mp hb with hpp | hany
  · cases hppe : pp with
    | nil => simp [hppe] at hpp
    | cons x xs =>
      subst hppe
      simp [isEmptyValB, List.isEmpty_iff]
  · obtain ⟨x, hx, hpx⟩ := List.any_eq_true.mp hany
    have hne : l.filter SubtargetOrPath.is_subtarget ≠ [] := by
      intro hc
      have : x ∈ l.filter SubtargetOrPath.is_subtarget :=
        List.mem_filter.mpr ⟨hx, hpx⟩
      simp [hc] at this
    cases hf : l.filter SubtargetOrPath.is_subtarget with
    | nil => exact absurd hf hne
    | cons y ys => simp [isEmptyValB, hf, List.isEmpty_iff]

/-- C2 (amended): every serializer omits attributes whose value is an
empty collection or absent optional, with these exceptions visible in
the code: `visibility` is always emitted (and `Private` renders as the
empty list), `HttpArchive` always emits `urls`, and `CxxLibrary` always
emits `srcs`, `headers` and `preferred_linkage` (the latter rendering as
`None` when absent). -/
theorem c2_omission_amended :
    (∀ p : PlatformRustCommon, OmitsF (serializePlatformRustCommon p)) ∧
    (∀ a : Alias, OmitsEmpties ["visibility"] (serializeAlias a)) ∧
    (∀ g : GitFetch, OmitsEmpties ["visibility"] (serializeGitFetch g)) ∧
    (∀ h : HttpArchive, OmitsEmpties ["urls", "visibility"] (serializeHttpArchive h)) ∧
    (∀ l : RustLibrary, OmitsEmpties ["visibility"] (serializeRustLibrary l)) ∧
    (∀ b : RustBinary, OmitsEmpties ["visibility"] (serializeRustBinary b)) ∧
    (∀ g : BuildscriptGenrule, OmitsEmpties [] (serializeBuildscriptGenrule g)) ∧
    (∀ c : CxxLibrary,
      OmitsEmpties ["srcs", "headers", "preferred_linkage", "visibility"]
        (serializeCxxLibrary c)) ∧
    (∀ p : PrebuiltCxxLibrary,
      OmitsEmpties ["visibility"] (serializePrebuiltCxxLibrary p)) := by
  refine ⟨?_, ?_, ?_, ?_, ?_, ?_, ?_, ?_, ?_⟩
  · intro p
    obtain ⟨srcs, ms, rf, ft, dp, nd, ev, ls, pl⟩ := p
    exact omitsF_append (omitsF_append (omitsF_append (omitsF_append (omitsF_append (omitsF_append (omitsF_append (omitsF_append (omitsF_if_nonempty nonemptyF_strs) (omitsF_if_nonempty nonemptyF_smap_map)) (omitsF_if_nonempty nonemptyF_strs)) omitsF_opt_str) (omitsF_if_nonempty nonemptyF_smap_map)) (omitsF_if_nonempty nonemptyF_smap_map)) omitsF_opt_str) (omitsF_if_nonempty nonemptyF_strs)) (omitsF_if_nonempty nonemptyF_strs_map)
  · intro a
    obtain ⟨name, actual, vis⟩ := a
    exact omits_append (omits_append omits_always_str omits_always_str) (omits_always_allowed (by simp))
  · intro g
    obtain ⟨name, repo, rev, vis⟩ := g
    exact omits_append (omits_append (omits_append omits_always_str omits_always_str) omits_always_str) (omits_always_allowed (by simp))
  · intro h
    obtain ⟨name, sha, sp, subs, urls, vis, sk⟩ := h
    exact omits_append (omits_append (omits_append (omits_append (omits_append omits_always_str omits_always_str) omits_always_str) (omits_if_nonempty nonempty_strs)) (omits_always_allowed (by simp))) (omits_always_allowed (by simp))
  · intro l
    obtain ⟨⟨⟨name, vis, lic, cw⟩, krate, cr, ed, ⟨srcs, ms, rf, ft, dp, nd, ev, ls, pl⟩,
      plat⟩, pm, de, pe, la⟩ := l
    exact omits_append (omits_append (omits_append (omits_append (omits_append (omits_append (omits_append (omits_append (omits_append (omits_append (omits_append (omits_append (omits_append (omits_append (omits_append (omits_append (omits_append (omits_append (omits_append (omits_append omits_always_str (omits_if_nonempty nonempty_strs)) (omits_if_nonempty nonempty_strs_map)) omits_always_str) omits_always_str) (omits_if_nonempty (fun _ => rfl))) omits_always_str) (omits_if_nonempty nonempty_smap_map)) (omits_if_nonempty nonempty_strs)) (omits_if_nonempty nonempty_strs)) omits_opt_str) omits_opt_str) (omits_if_nonempty nonempty_smap_map)) (omits_if_nonempty nonempty_smap_map)) (omits_if_nonempty nonempty_platdict)) omits_opt_str) (omits_if_nonempty (fun _ => rfl))) omits_opt_str) (omits_if_nonempty nonempty_strs)) (omits_always_allowed (by simp))) (omits_if_nonempty nonempty_strs_map)
  · intro b
    obtain ⟨⟨⟨name, vis, lic, cw⟩, krate, cr, ed, ⟨srcs, ms, rf, ft, dp, nd, ev, ls, pl⟩,
      plat⟩⟩ := b
    exact omits_append (omits_append (omits_append (omits_append (omits_append (omits_append (omits_append (omits_append (omits_append (omits_append (omits_append (omits_append (omits_append (omits_append (omits_append (omits_append omits_always_str (omits_if_nonempty nonempty_strs)) (omits_if_nonempty nonempty_strs_map)) omits_always_str) omits_always_str) omits_always_str) (omits_if_nonempty nonempty_smap_map)) (omits_if_nonempty nonempty_strs)) (omits_if_nonempty nonempty_strs)) omits_opt_str) (omits_if_nonempty nonempty_smap_map)) (omits_if_nonempty nonempty_smap_map)) (omits_if_nonempty nonempty_platdict)) omits_opt_str) (omits_if_nonempty nonempty_strs)) (omits_always_allowed (by simp))) (omits_if_nonempty nonempty_strs_map)
  · intro g
    obtain ⟨name, br, pn, ver, ft, cfgs, ev, pev, aev⟩ := g
    exact omits_append (omits_append (omits_append (omits_append (omits_append (omits_append (omits_append (omits_append omits_always_str omits_always_str) (omits_if_nonempty nonempty_smap)) omits_always_str) (omits_if_nonempty nonempty_strs)) (omits_if_nonempty nonempty_smap)) (omits_if_nonempty nonempty_strs)) (omits_if_nonempty nonempty_smap)) omits_always_str
  · intro c
    obtain ⟨⟨name, vis, lic, cw⟩, srcs, hdrs, eh, cf, ppf, hns, incs, dp, pl⟩ := c
    exact omits_append (omits_append (omits_append (omits_append (omits_append (omits_append (omits_append (omits_append (omits_append (omits_append (omits_append (omits_append omits_always_str (omits_always_allowed (by simp))) (omits_always_allowed (by simp))) omits_opt_str) (omits_if_nonempty nonempty_setOrMap)) (omits_if_nonempty nonempty_strs_map)) (omits_if_nonempty nonempty_strs)) (omits_if_nonempty nonempty_filter_map)) (omits_if_nonempty nonempty_strs)) (omits_always_allowed (by simp))) (omits_if_nonempty nonempty_pp_flags)) (omits_always_allowed (by simp))) (omits_if_nonempty nonempty_strs_map)
  · intro p
    obtain ⟨⟨name, vis, lic, cw⟩, sl⟩ := p
    exact omits_append (omits_append (omits_append (omits_append omits_always_str (omits_if_nonempty nonempty_strs_map)) (omits_if_nonempty nonempty_strs)) omits_always_str) (omits_always_allowed (by simp))

/-- Sample `CxxLibrary` with every collection empty and every optional
absent. -/
def cxxEx : CxxLibrary :=
  { common := { name := "x", visibility := .Private, licenses := [], compatible_with := [] },
    srcs := [], headers := [], exported_headers := .set [], compiler_flags := [],
    preprocessor_flags := [], header_namespace := none, include_directories := [],
    deps := [], preferred_linkage := none }

/-- C2 counterexample: rendering an all-empty `CxxLibrary` emits the
keys `srcs` (empty list), `preferred_linkage` (absent optional, rendered
`None`) and `visibility` (`Private` rendered as the empty list). -/
theorem c2_counterexample :
    ("srcs", Val.strs []) ∈ serializeCxxLibrary cxxEx ∧
    ("preferred_linkage", Val.vnone) ∈ serializeCxxLibrary cxxEx ∧
    ("visibility", Val.strs []) ∈ serializeCxxLibrary cxxEx ∧
    isEmptyValB (Val.strs []) = true ∧
    isEmptyValB Val.vnone = true := by
  decide

/-- C2 witness: the amended omission property at a concrete alias whose
`Private` visibility renders as an empty list. -/
theorem c2_witness :
    ("visibility", serializeVisibility .Private) ∈
      serializeAlias { name := "n", actual := "m", visibility := .Private } ∧
    isEmptyValB (serializeVisibility .Private) = true ∧
    ("visibility" : String) ∈ ["visibility"] :=
  ⟨by decide, by decide,
    c2_omission_amended.2.1 { name := "n", actual := "m", visibility := .Private }
      ("visibility", serializeVisibility .Private) (by decide) (by decide)⟩

end Buck

namespace Bky

/-- Model of `PlatformName` (external `platform` module): the platform
name string. -/
abbrev PlatformName := String

/-- Association-list model of `BTreeMap::entry(k).or_default()` followed
by a mutation `f`: update the value at `k`, inserting `f d` when the key
is absent. -/
def alUpdate (m : List (PlatformName × α)) (k : PlatformName) (f : α → α) (d : α) :
    List (PlatformName × α) :=
  match m with
  | [] => [(k, f d)]
  | (j, v) :: rest =>
    if k = j then (j, f v) :: rest else (j, v) :: alUpdate rest k f d

/-- Association-list model of `BTreeMap::insert`: replaces the value at
an existing key, appends otherwise. -/
def alInsert (m : List (String × α)) (k : String) (v : α) : List (String × α) :=
  match m with
  | [] => [(k, v)]
  | (j, w) :: rest =>
    if k = j then (k, v) :: rest else (j, w) :: alInsert rest k v

/-- Membership-list model of `BTreeSet<RuleRef>::insert`: keeps the
existing element when an `Ord`-equal one is present. -/
def refInsert (s : List Buck.RuleRef) (r : Buck.RuleRef) : List Buck.RuleRef :=
  if s.any (fun x => Buck.RuleRef.cmp x r == Ordering.eq) then s else s ++ [r]

/-- Model of `unzip_platform` (buckify.rs lines 88-110): fold a stream of
platform-tagged items into the base record and the per-platform map.
The parameter `names_for` models the external platform collaborator
`platform_names_for_expr`; an expansion failure aborts with its error. -/
def unzip_platform {T : Type}
    (names_for : String → Except String (List PlatformName))
    (extend : Buck.PlatformRustCommon → T → Buck.PlatformRustCommon)
    (common : Buck.PlatformRustCommon)
    (perplat : List (PlatformName × Buck.PlatformRustCommon)) :
    List (Option String × T) →
      Except String (Buck.PlatformRustCommon × List (PlatformName × Buck.PlatformRustCommon))
  | [] => .ok (common, perplat)
  | (some expr, thing) :: rest =>
    match names_for expr with
    | .error e => .error e
    | .ok plats =>
      unzip_platform names_for extend common
        (plats.foldl (fun m p => alUpdate m p (fun b => extend b thing) Buck.prcDefault)
          perplat)
        rest
  | (none, thing) :: rest =>
    unzip_platform names_for extend (extend common thing) perplat rest

/-- Model of `RuleRef::filter` (buck.rs lines 91-101): a dependency with
no platform guard always applies; otherwise the external predicate
parser/evaluator (parameter `evalPred`, the platform collaborator)
decides. -/
def refFilter {PC : Type} (evalPred : String → PC → Except String Bool)
    (r : Buck.RuleRef) (pc : PC) : Except String Bool :=
  match r.platform with
  | none => .ok true
  | some cfg => evalPred cfg pc

/-- State threaded through the dependency fan-out of
`generate_target_rules` (buckify.rs lines 350-406). -/
structure DepState where
  base : Buck.PlatformRustCommon
  perplat : List (PlatformName × Buck.PlatformRustCommon)
  dep_pkgs : List Nat
deriving DecidableEq, Repr

/-- One dependency insertion: a renamed dependency goes into the
named-dependency map, an unrenamed one into the plain dependency set. -/
def addDep (rename : Option String) (dep : Buck.RuleRef)
    (prc : Buck.PlatformRustCommon) : Buck.PlatformRustCommon :=
  match rename with
  | some rn => { prc with named_deps := alInsert prc.named_deps rn dep }
  | none => { prc with deps := refInsert prc.deps dep }

/-- Model of the platform-tagged dependency loop of
`generate_target_rules` (buckify.rs lines 356-395): the dependency is
filtered against every configured platform; each satisfying platform
folds it into the base record when that platform is the default,
otherwise into that platform's bucket, and records the dependency's
package for recursion. -/
def depFanout {PC : Type} (evalPred : String → PC → Except String Bool)
    (isDefault : PlatformName → Bool)
    (deppkg : Option Nat) (dep : Buck.RuleRef) (rename : Option String) :
    List (PlatformName × PC) → DepState → Except String DepState
  | [], st => .ok st
  | (name, platform) :: rest, st =>
    match refFilter evalPred dep platform with
    | .error e => .error e
    | .ok true =>
      let st1 :=
        if isDefault name then
          { st with base := addDep rename dep st.base }
        else
          { st with
            perplat := alUpdate st.perplat name (addDep rename dep) Buck.prcDefault }
      depFanout evalPred isDefault deppkg dep rename rest
        { st1 with dep_pkgs := st1.dep_pkgs ++ deppkg.toList }
    | .ok false => depFanout evalPred isDefault deppkg dep rename rest st

/-- Decidable equality for `Except` results. -/
instance {ε α : Type} [DecidableEq ε] [DecidableEq α] : DecidableEq (Except ε α) :=
  fun a b =>
    match a, b with
    | .error e, .error f =>
      if h : e = f then isTrue (by rw [h]) else isFalse (by intro hc; cases hc; exact h rfl)
    | .error _, .ok _ => isFalse (by intro hc; cases hc)
    | .ok _, .error _ => isFalse (by intro hc; cases hc)
    | .ok x, .ok y =>
      if h : x = y then isTrue (by rw [h]) else isFalse (by intro hc; cases hc; exact h rfl)

/-- Whether a dependency's filter accepts a platform configuration. -/
def satB {PC : Type} (evalPred : String → PC → Except String Bool)
    (dep : Buck.RuleRef) (pc : PC) : Bool :=
  decide (refFilter evalPred dep pc = .ok true)

/-- Error-free restatement of `depFanout`, used to characterize it. -/
def depFanoutPure {PC : Type} (evalPred : String → PC → Except String Bool)
    (isDefault : PlatformName → Bool)
    (deppkg : Option Nat) (dep : Buck.RuleRef) (rename : Option String) :
    List (PlatformName × PC) → DepState → DepState
  | [], st => st
  | (name, platform) :: rest, st =>
    if satB evalPred dep platform then
      let st1 :=
        if isDefault name then
          { st with base := addDep rename dep st.base }
        else
          { st with
            perplat := alUpdate st.perplat name (addDep rename dep) Buck.prcDefault }
      depFanoutPure evalPred isDefault deppkg dep rename rest
        { st1 with dep_pkgs := st1.dep_pkgs ++ deppkg.toList }
    else depFanoutPure evalPred isDefault deppkg dep rename rest st

/-- Whether any configured platform is the default and satisfies the
dependency's guard. -/
def anyDefSat {PC : Type} (evalPred : String → PC → Except String Bool)
    (isDefault : PlatformName → Bool) (dep : Buck.RuleRef)
    (platforms : List (PlatformName × PC)) : Bool :=
  platforms.any (fun p => isDefault p.1 && satB evalPred dep p.2)

/-- Whether the platform named `n` is configured, non-default and
satisfies the dependency's guard. -/
def anySatAt {PC : Type} (evalPred : String → PC → Except String Bool)
    (isDefault : PlatformName → Bool) (dep : Buck.RuleRef)
    (platforms : List (PlatformName × PC)) (n : PlatformName) : Bool :=
  platforms.any (fun p => p.1 == n && !isDefault p.1 && satB evalPred dep p.2)

/-- Model of `RuleRef::local` (referenced from buckify.rs; the same
`:`-prefixing as buck.rs's `From<Name> for RuleRef`). -/
def localRef (n : String) : Buck.RuleRef :=
  { target := ":" ++ n, platform := none }

/-- Model of the `Alias` shape constructed by buckify.rs (name, local
reference to the actual target, public flag). -/
structure Alias where
  name : String
  actual : Buck.RuleRef
  public : Bool
deriving DecidableEq, Repr

/-- Model of the `Common` shape constructed by buckify.rs. -/
structure Common where
  name : String
  public : Bool
  licenses : List String
  compatible_with : List Buck.RuleRef
deriving DecidableEq, Repr

/-- Model of the `RustCommon` shape constructed by buckify.rs. -/
structure RustCommon where
  common : Common
  krate : String
  rootmod : String
  edition : String
  base : Buck.PlatformRustCommon
  platform : List (PlatformName × Buck.PlatformRustCommon)
deriving DecidableEq, Repr

/-- Model of the `RustLibrary` shape constructed by buckify.rs. -/
structure RustLibrary where
  common : RustCommon
  proc_macro : Bool
  dlopen_enable : Bool
  python_ext : Option String
  linkable_alias : Option String
deriving DecidableEq, Repr

/-- The rule variants produced by the library branch of
`generate_target_rules`. -/
inductive Rule
  | alias (a : Alias)
  | library (l : RustLibrary)
deriving DecidableEq, Repr

/-- Model of the library branch of `generate_target_rules` (buckify.rs
lines 455-503): an alias is emitted only for a public, non-root
package; the single library declaration uses the public name and public
visibility exactly for the root package. -/
def generateLibraryRules (is_public is_root : Bool) (pubName privName : String)
    (licenses : List String) (krate rootmod edition : String)
    (lib_base : Buck.PlatformRustCommon)
    (lib_perplat : List (PlatformName × Buck.PlatformRustCommon))
    ( crate_proc_macro kind_cdylib : Bool) (python_ext : Option String) : List Rule :=
  (if is_public && !is_root then
    [Rule.alias { name := pubName, actual := localRef privName, public := true }]
  else []) ++
  [Rule.library {
    common := {
      common := {
        name := if is_root then pubName else privName,
        public := is_root,
        licenses := licenses,
        compatible_with := [] },
      krate := krate,
      rootmod := rootmod,
      edition := edition,
      base := lib_base,
      platform := lib_perplat },
    proc_macro := crate_proc_macro,
    dlopen_enable := kind_cdylib && python_ext.isNone,
    python_ext := python_ext,
    linkable_alias :=
      if is_public && (kind_cdylib || python_ext.isSome) then some pubName else none }]

/-- A package of the dependency graph: its id and its targets (abstract
target handles resolved by the generation function). -/
structure Pkg where
  id : Nat
  targets : List Nat
deriving DecidableEq, Repr

/-- State of the sequentialized graph walker: the visited (`done`) set,
the packages whose processing began (in begin order), and the contents
of the result channel (rule sends and error sends). -/
structure WalkSt where
  done : List Nat
  proc : List Nat
  out : List (Except String Nat)
deriving DecidableEq, Repr

mutual

/-- Model of `generate_dep_rules` (buckify.rs lines 123-138),
sequentialized: a package not yet in the shared visited set is inserted
into it at the moment work on it begins, before its targets are
generated; an already-visited package is skipped.  Fuel bounds the
recursion depth and decreases at every call. -/
def genDepRules (gt : Pkg → Nat → Except String (List Nat × List Pkg)) :
    Nat → WalkSt → List Pkg → WalkSt
  | 0, st, _ => st
  | fuel + 1, st, ps =>
    match ps with
    | [] => st
    | p :: rest =>
      if p.id ∈ st.done then genDepRules gt fuel st rest
      else
        let st1 := { st with done := p.id :: st.done, proc := st.proc ++ [p.id] }
        let st2 := genTargets gt fuel st1 p p.targets
        genDepRules gt fuel st2 rest

/-- Model of `generate_rules` (buckify.rs lines 141-170): each target is
generated in turn; a failing target sends its error and its dependencies
are not traversed; a target yielding no rules is skipped; otherwise the
rules are sent and the dependency packages are walked. -/
def genTargets (gt : Pkg → Nat → Except String (List Nat × List Pkg)) :
    Nat → WalkSt → Pkg → List Nat → WalkSt
  | 0, st, _, _ => st
  | fuel + 1, st, pkg, ts =>
    match ts with
    | [] => st
    | t :: rest =>
      match gt pkg t with
      | .error e => genTargets gt fuel { st with out := st.out ++ [.error e] } pkg rest
      | .ok ([], _) => genTargets gt fuel st pkg rest
      | .ok (rules, deps) =>
        genTargets gt fuel
          (genDepRules gt fuel { st with out := st.out ++ rules.map Except.ok } deps)
          pkg rest

end

/-- Model of draining the result channel into
`collect::<Result<BTreeSet<_>>>` (buckify.rs line 602): the first error
send, if any, is returned; otherwise all rules are collected. -/
def collectRules : List (Except String Nat) → Except String (List Nat)
  | [] => .ok []
  | .error e :: _ => .error e
  | .ok r :: rest =>
    match collectRules rest with
    | .error e => .error e
    | .ok rs => .ok (r :: rs)

/-- Model of the error handling of `buckify` (buckify.rs lines 601-613):
on a collected error, the configured remediation hint (if any) is
surfaced along with the single representative error. -/
def buckifyCollect (hint : Option String) (out : List (Except String Nat)) :
    Except (String × Option String) (List Nat) :=
  match collectRules out with
  | .ok rules => .ok rules
  | .error e => .error (e, hint)

/-- C7: for a library-like target of a public, non-root package the
branch emits a public alias from the public name to the local private
name plus one private library declaration named with the private name;
for the root package it emits no alias and one public library
declaration named with the public name. -/
theorem c7_library_emission (is_public is_root : Bool) (pubName privName : String)
    (licenses : List String) (krate rootmod edition : String)
    (lib_base : Buck.PlatformRustCommon)
    (lib_perplat : List (PlatformName × Buck.PlatformRustCommon))
    (cpm kcd : Bool) (pe : Option String) :
    (is_public = true → is_root = false →
      generateLibraryRules is_public is_root pubName privName licenses krate rootmod
          edition lib_base lib_perplat cpm kcd pe =
        [Rule.alias { name := pubName, actual := localRef privName, public := true },
         Rule.library
           { common :=
               { common :=
                   { name := privName, public := false, licenses := licenses,
                     compatible_with := [] },
                 krate := krate, rootmod := rootmod, edition := edition,
                 base := lib_base, platform := lib_perplat },
             proc_macro := cpm,
             dlopen_enable := kcd && pe.isNone,
             python_ext := pe,
             linkable_alias := if kcd || pe.isSome then some pubName else none }]) ∧
    (is_root = true →
      generateLibraryRules is_public is_root pubName privName licenses krate rootmod
          edition lib_base lib_perplat cpm kcd pe =
        [Rule.library
           { common :=
               { common :=
                   { name := pubName, public := true, licenses := licenses,
                     compatible_with := [] },
                 krate := krate, rootmod := rootmod, edition := edition,
                 base := lib_base, platform := lib_perplat },
             proc_macro := cpm,
             dlopen_enable := kcd && pe.isNone,
             python_ext := pe,
             linkable_alias :=
               if is_public && (kcd || pe.isSome) then some pubName else none }]) := by
  constructor
  · intro hpub hroot
    subst hpub
    subst hroot
    simp [generateLibraryRules]
  · intro hroot
    subst hroot
    simp [generateLibraryRules]

/-- C7 witness: both branches at concrete arguments. -/
theorem c7_witness :
    generateLibraryRules true false "pub" "priv" [] "k" "lib.rs" "2021"
        Buck.prcDefault [] false false none =
      [Rule.alias { name := "pub", actual := localRef "priv", public := true },
       Rule.library
         { common :=
             { common :=
                 { name := "priv", public := false, licenses := [],
                   compatible_with := [] },
               krate := "k", rootmod := "lib.rs", edition := "2021",
               base := Buck.prcDefault, platform := [] },
           proc_macro := false, dlopen_enable := false, python_ext := none,
           linkable_alias := none }] :=
  (c7_library_emission true false "pub" "priv" [] "k" "lib.rs" "2021"
    Buck.prcDefault [] false false none).1 rfl rfl

/-- Helper: lookup after an association-list update. -/
theorem lookup_alUpdate {α : Type} (m : List (PlatformName × α)) (k n : PlatformName)
    (f : α → α) (d : α) :
    (alUpdate m k f d).lookup n =
      if n = k then some (f ((m.lookup k).getD d)) else m.lookup n := by
  induction m with
  | nil =>
    by_cases h : n = k
    · subst h
      simp [alUpdate, List.lookup]
    · have hb : (n == k) = false := beq_eq_false_iff_ne.mpr h
      simp [alUpdate, List.lookup, hb, h]
  | cons hd tl ih =>
    obtain ⟨j, v⟩ := hd
    by_cases hkj : k = j
    · subst hkj
      by_cases hnk : n = k
      · subst hnk
        simp [alUpdate, List.lookup]
      · have hb : (n == k) = false := beq_eq_false_iff_ne.mpr hnk
        simp [alUpdate, List.lookup, hb, hnk]
    · by_cases hnj : n = j
      · subst hnj
        have hnk : ¬n = k := fun hc => hkj hc.symm
        have hb : (k == n) = false := beq_eq_false_iff_ne.mpr hkj
        simp [alUpdate, hkj, List.lookup, hnk, hb]
      · have hbnj : (n == j) = false := beq_eq_false_iff_ne.mpr hnj
        have hbkj : (k == j) = false := beq_eq_false_iff_ne.mpr hkj
        simp [alUpdate, hkj, List.lookup, hbnj, hbkj, ih]

/-- Helper: lookup after folding updates over a duplicate-free list of
platform names. -/
theorem foldl_alUpdate_lookup {α : Type} (f : α → α) (d : α) :
    ∀ (plats : List PlatformName), plats.Nodup →
      ∀ (m : List (PlatformName × α)) (n : PlatformName),
        (plats.foldl (fun acc p => alUpdate acc p f d) m).lookup n =
          if n ∈ plats then some (f ((m.lookup n).getD d)) else m.lookup n := by
  intro plats
  induction plats with
  | nil =>
    intro _ m n
    simp
  | cons p ps ih =>
    intro hnd m n
    obtain ⟨hp, hnd2⟩ := List.nodup_cons.mp hnd
    rw [List.foldl_cons, ih hnd2]
    by_cases hmem : n ∈ ps
    · have hnp : n ≠ p := fun hc => hp (hc ▸ hmem)
      simp [hmem, lookup_alUpdate, hnp]
    · by_cases hnp : n = p
      · subst hnp
        simp [hmem, lookup_alUpdate]
      · simp [hmem, hnp, lookup_alUpdate]

/-- C5: the attribute partitioner folds an untagged item only into the
base record, and folds an item tagged with expression `E` into exactly
the buckets for the platform names satisfying `E` (each created on
first use) and never into the base record. -/
theorem c5_unzip_partition {T : Type}
    (names_for : String → Except String (List PlatformName))
    (extend : Buck.PlatformRustCommon → T → Buck.PlatformRustCommon)
    (base : Buck.PlatformRustCommon)
    (perplat : List (PlatformName × Buck.PlatformRustCommon)) (t : T) :
    (unzip_platform names_for extend base perplat [(none, t)] =
      .ok (extend base t, perplat)) ∧
    (∀ e plats, names_for e = .ok plats →
      unzip_platform names_for extend base perplat [(some e, t)] =
        .ok (base,
          plats.foldl
            (fun m p => alUpdate m p (fun b => extend b t) Buck.prcDefault) perplat)) ∧
    (∀ e plats, names_for e = .ok plats → plats.Nodup → ∀ n,
      (plats.foldl
          (fun m p => alUpdate m p (fun b => extend b t) Buck.prcDefault)
          perplat).lookup n =
        if n ∈ plats then some (extend ((perplat.lookup n).getD Buck.prcDefault) t)
        else perplat.lookup n) := by
  refine ⟨rfl, ?_, ?_⟩
  · intro e plats h
    simp [unzip_platform, h]
  · intro e plats _ hnd n
    exact foldl_alUpdate_lookup _ _ plats hnd perplat n

/-- Sample platform collaborator used in witnesses. -/
def nfEx : String → Except String (List PlatformName) :=
  fun e =>
    if e = "os=linux" then .ok ["linux-x86_64", "linux-arm64"]
    else .error ("Bad platform expression " ++ e)

/-- Sample fold function used in witnesses (extends the feature set). -/
def extEx : Buck.PlatformRustCommon → String → Buck.PlatformRustCommon :=
  fun b f => { b with features := b.features ++ [f] }

/-- C5 witness: a tagged item lands in exactly the two satisfying
buckets, created on first use, and in no other bucket. -/
theorem c5_witness :
    unzip_platform nfEx extEx Buck.prcDefault [] [(some "os=linux", "feat")] =
      .ok (Buck.prcDefault,
        [("linux-x86_64", extEx Buck.prcDefault "feat"),
         ("linux-arm64", extEx Buck.prcDefault "feat")]) ∧
    ([("linux-x86_64", extEx Buck.prcDefault "feat"),
      ("linux-arm64", extEx Buck.prcDefault "feat")].lookup "macos" =
      (none : Option Buck.PlatformRustCommon)) :=
  ⟨(c5_unzip_partition nfEx extEx Buck.prcDefault [] "feat").2.1
      "os=linux" ["linux-x86_64", "linux-arm64"] rfl,
   (c5_unzip_partition nfEx extEx Buck.prcDefault [] "feat").2.2
      "os=linux" ["linux-x86_64", "linux-arm64"] rfl (by decide) "macos"⟩

/-- Whether an `Except` value is `ok`. -/
def exceptIsOk : Except ε α → Bool
  | .ok _ => true
  | .error _ => false

/-- Helper: list comparison is reflexive when the element comparator is. -/
theorem listCmp_refl (f : α → α → Ordering) (hf : ∀ a, f a a = Ordering.eq) :
    ∀ l, listCmp f l l = Ordering.eq := by
  intro l
  induction l with
  | nil => rfl
  | cons a as ih => simp [listCmp, hf, ih, Ordering.then]

/-- Helper: `buildifier_cmp` is reflexive. -/
theorem buildifier_cmp_refl (s : String) : buildifier_cmp s s = Ordering.eq := by
  have hp : pieceCmp s.data s.data = Ordering.eq :=
    listCmp_refl _ (fun piece => listCmp_refl _ (fun c => natCompareSelf c.toNat) piece) _
  simp [buildifier_cmp, natCompareSelf, Ordering.then, hp]

/-- Helper: `RuleRef` comparison is reflexive. -/
theorem refCmp_refl (r : Buck.RuleRef) : Buck.RuleRef.cmp r r = Ordering.eq := by
  unfold Buck.RuleRef.cmp
  rw [buildifier_cmp_refl]
  cases hp : r.platform with
  | none => rfl
  | some p => simp [Buck.optionCmp, Ordering.then, Buck.strCmp_self]

/-- Helper: inserting the same `RuleRef` twice equals inserting it once. -/
theorem refInsert_idem (s : List Buck.RuleRef) (r : Buck.RuleRef) :
    refInsert (refInsert s r) r = refInsert s r := by
  unfold refInsert
  by_cases h : s.any (fun x => Buck.RuleRef.cmp x r == Ordering.eq) = true
  · simp [h]
  · simp [h, refCmp_refl]
    rfl

/-- Helper: inserting the same map entry twice equals inserting it once. -/
theorem alInsert_idem (m : List (String × α)) (k : String) (v : α) :
    alInsert (alInsert m k v) k v = alInsert m k v := by
  induction m with
  | nil => simp [alInsert]
  | cons hd tl ih =>
    obtain ⟨j, w⟩ := hd
    by_cases h : k = j
    · subst h
      simp [alInsert]
    · simp [alInsert, h, ih]

/-- Helper: folding the same dependency in twice equals folding it in
once. -/
theorem addDep_idem (rename : Option String) (dep : Buck.RuleRef)
    (prc : Buck.PlatformRustCommon) :
    addDep rename dep (addDep rename dep prc) = addDep rename dep prc := by
  cases rename <;> simp [addDep, refInsert_idem, alInsert_idem]

/-- Helper: when every filter evaluation succeeds, `depFanout` returns
its pure restatement. -/
theorem depFanout_ok {PC : Type} (ep : String → PC → Except String Bool)
    (isd : PlatformName → Bool) (dpk : Option Nat) (dep : Buck.RuleRef)
    (rn : Option String) :
    ∀ (platforms : List (PlatformName × PC)) (st : DepState),
      (∀ p ∈ platforms, exceptIsOk (refFilter ep dep p.2) = true) →
      depFanout ep isd dpk dep rn platforms st =
        .ok (depFanoutPure ep isd dpk dep rn platforms st) := by
  intro platforms
  induction platforms with
  | nil =>
    intro st _
    rfl
  | cons p rest ih =>
    intro st hok
    obtain ⟨name, pc⟩ := p
    have hhead := hok (name, pc) (List.mem_cons_self _ _)
    have htail : ∀ q ∈ rest, exceptIsOk (refFilter ep dep q.2) = true :=
      fun q hq => hok q (List.mem_cons_of_mem _ hq)
    cases hf : refFilter ep dep pc with
    | error e =>
      rw [hf] at hhead
      cases hhead
    | ok b =>
      cases b
      · have hsat : satB ep dep pc = false := by simp [satB, hf]
        simp only [depFanout, depFanoutPure, hf, hsat, Bool.false_eq_true, if_false]
        exact ih _ htail
      · have hsat : satB ep dep pc = true := by simp [satB, hf]
        simp only [depFanout, depFanoutPure, hf, hsat, if_true]
        exact ih _ htail

/-- Helper: the base record after the fan-out receives the dependency
exactly when some default platform satisfies the guard. -/
theorem depFanoutPure_base {PC : Type} (ep : String → PC → Except String Bool)
    (isd : PlatformName → Bool) (dpk : Option Nat) (dep : Buck.RuleRef)
    (rn : Option String) :
    ∀ (platforms : List (PlatformName × PC)) (st : DepState),
      (depFanoutPure ep isd dpk dep rn platforms st).base =
        if anyDefSat ep isd dep platforms then addDep rn dep st.base else st.base := by
  intro platforms
  induction platforms with
  | nil =>
    intro st
    simp [depFanoutPure, anyDefSat]
  | cons p rest ih =>
    intro st
    obtain ⟨name, pc⟩ := p
    by_cases hsat : satB ep dep pc = true
    · by_cases hdef : isd name = true
      · simp only [depFanoutPure, hsat, hdef, if_true, ih, anyDefSat, List.any_cons,
          Bool.true_and]
        by_cases h2 : rest.any (fun q => isd q.1 && satB ep dep q.2) = true
        · simp [anyDefSat] at h2
          simp [h2, hsat, addDep_idem]
        · simp only [Bool.not_eq_true] at h2
          simp [h2, hsat]
      · simp only [Bool.not_eq_true] at hdef
        simp only [depFanoutPure, hsat, hdef, if_true, Bool.false_eq_true, if_false, ih,
          anyDefSat, List.any_cons, Bool.false_and, Bool.false_or]
    · simp only [Bool.not_eq_true] at hsat
      simp only [depFanoutPure, hsat, Bool.false_eq_true, if_false, ih, anyDefSat,
        List.any_cons, Bool.and_false, Bool.false_or]

/-- Helper: a satisfied non-default platform is among the configured
names. -/
theorem anySatAt_mem {PC : Type} {ep : String → PC → Except String Bool}
    {isd : PlatformName → Bool} {dep : Buck.RuleRef}
    {platforms : List (PlatformName × PC)} {n : PlatformName}
    (h : anySatAt ep isd dep platforms n = true) :
    n ∈ platforms.map Prod.fst := by
  obtain ⟨p, hp, hcond⟩ := List.any_eq_true.mp h
  have h1 : (p.1 == n) = true := by
    rcases Bool.and_eq_true _ _ |>.mp hcond with ⟨h12, _⟩
    exact (Bool.and_eq_true _ _ |>.mp h12).1
  exact List.mem_map.mpr ⟨p, hp, beq_iff_eq.mp h1⟩

/-- Helper: bucket contents after the fan-out, for duplicate-free
platform names: the bucket of `n` receives the dependency exactly when
platform `n` is configured, non-default and satisfies the guard; all
other buckets are untouched. -/
theorem depFanoutPure_perplat {PC : Type} (ep : String → PC → Except String Bool)
    (isd : PlatformName → Bool) (dpk : Option Nat) (dep : Buck.RuleRef)
    (rn : Option String) :
    ∀ (platforms : List (PlatformName × PC)),
      (platforms.map Prod.fst).Nodup →
      ∀ (st : DepState) (n : PlatformName),
        ((depFanoutPure ep isd dpk dep rn platforms st).perplat).lookup n =
          if anySatAt ep isd dep platforms n = true then
            some (addDep rn dep ((st.perplat.lookup n).getD Buck.prcDefault))
          else st.perplat.lookup n := by
  intro platforms
  induction platforms with
  | nil =>
    intro _ st n
    simp [depFanoutPure, anySatAt]
  | cons p rest ih =>
    intro hnd st n
    obtain ⟨name, pc⟩ := p
    rw [List.map_cons, List.nodup_cons] at hnd
    obtain ⟨hname, hnd2⟩ := hnd
    by_cases hsat : satB ep dep pc = true
    · by_cases hdef : isd name = true
      · simp only [depFanoutPure, hsat, hdef, if_true, ih hnd2, anySatAt,
          List.any_cons, Bool.not_true, Bool.and_false, Bool.false_and, Bool.false_or]
      · simp only [Bool.not_eq_true] at hdef
        simp only [depFanoutPure, hsat, hdef, if_true, Bool.false_eq_true, if_false,
          ih hnd2, anySatAt, List.any_cons, Bool.not_false, Bool.and_true]
        by_cases hrest : rest.any (fun q => q.1 == n && !isd q.1 && satB ep dep q.2) = true
        · have hmem : n ∈ rest.map Prod.fst := anySatAt_mem (h := hrest)
          have hne : ¬n = name := fun hc => hname (hc ▸ hmem)
          simp only [hrest, Bool.or_true, if_true, lookup_alUpdate, hne, if_false]
        · simp only [Bool.not_eq_true] at hrest
          by_cases hn : n = name
          · subst hn
            simp only [hrest, Bool.or_false, lookup_alUpdate, if_true, beq_self_eq_true,
              Bool.true_and, hsat, Bool.and_true, if_pos rfl]
            simp
          · have hb : (name == n) = false :=
              beq_eq_false_iff_ne.mpr (fun hc => hn hc.symm)
            simp only [hrest, Bool.or_false, lookup_alUpdate, hn, if_false, hb,
              Bool.false_and, Bool.false_eq_true]
    · simp only [Bool.not_eq_true] at hsat
      simp only [depFanoutPure, hsat, Bool.false_eq_true, if_false, ih hnd2,
        anySatAt, List.any_cons, Bool.and_false, Bool.false_or]

/-- C4: the dependency fan-out evaluates the platform guard against
every configured platform (aborting only on an evaluation error); each
satisfying platform folds the dependency into the base record when it is
the designated default and otherwise into exactly that platform's
bucket (renamed dependencies through the named-dependency map, plain
ones through the dependency set); non-satisfying platforms receive
nothing. -/
theorem c4_dep_fanout {PC : Type} (ep : String → PC → Except String Bool)
    (isd : PlatformName → Bool) (dpk : Option Nat) (dep : Buck.RuleRef)
    (rn : Option String) (platforms : List (PlatformName × PC)) (st : DepState) :
    ((∀ p ∈ platforms, exceptIsOk (refFilter ep dep p.2) = true) →
      depFanout ep isd dpk dep rn platforms st =
        .ok (depFanoutPure ep isd dpk dep rn platforms st)) ∧
    ((depFanoutPure ep isd dpk dep rn platforms st).base =
      if anyDefSat ep isd dep platforms then addDep rn dep st.base else st.base) ∧
    ((platforms.map Prod.fst).Nodup → ∀ n,
      ((depFanoutPure ep isd dpk dep rn platforms st).perplat).lookup n =
        if anySatAt ep isd dep platforms n = true then
          some (addDep rn dep ((st.perplat.lookup n).getD Buck.prcDefault))
        else st.perplat.lookup n) :=
  ⟨fun hok => depFanout_ok ep isd dpk dep rn platforms st hok,
   depFanoutPure_base ep isd dpk dep rn platforms st,
   fun hnd n => depFanoutPure_perplat ep isd dpk dep rn platforms hnd st n⟩

/-- Sample platform predicate evaluator used in the C4 witness. -/
def epEx : String → String → Except String Bool :=
  fun expr pc =>
    if expr = "os=linux" then .ok (decide (pc = "linux")) else .error "parse error"

/-- Sample platform-guarded dependency used in the C4 witness. -/
def depD : Buck.RuleRef :=
  { target := "//third-party:D", platform := some "os=linux" }

/-- Sample platform configuration used in the C4 witness. -/
def platsEx : List (PlatformName × String) :=
  [("linux-x86_64", "linux"), ("linux-arm64", "linux"), ("macos", "macos")]

/-- C4 witness (Scenario C): with platforms linux-x86_64, linux-arm64
and macos and the guard `os=linux`, the dependency lands in both linux
buckets and in neither the base record nor the macos bucket. -/
theorem c4_witness :
    (depFanout epEx (fun _ => false) none depD none platsEx
        ⟨Buck.prcDefault, [], []⟩ =
      .ok (depFanoutPure epEx (fun _ => false) none depD none platsEx
        ⟨Buck.prcDefault, [], []⟩)) ∧
    ((depFanoutPure epEx (fun _ => false) none depD none platsEx
        ⟨Buck.prcDefault, [], []⟩).base = Buck.prcDefault) ∧
    (((depFanoutPure epEx (fun _ => false) none depD none platsEx
        ⟨Buck.prcDefault, [], []⟩).perplat).lookup "linux-arm64" =
      some (addDep none depD Buck.prcDefault)) ∧
    (((depFanoutPure epEx (fun _ => false) none depD none platsEx
        ⟨Buck.prcDefault, [], []⟩).perplat).lookup "macos" = none) :=
  ⟨(c4_dep_fanout epEx (fun _ => false) none depD none platsEx
      ⟨Buck.prcDefault, [], []⟩).1 (by decide),
   (c4_dep_fanout epEx (fun _ => false) none depD none platsEx
      ⟨Buck.prcDefault, [], []⟩).2.1,
   (c4_dep_fanout epEx (fun _ => false) none depD none platsEx
      ⟨Buck.prcDefault, [], []⟩).2.2 (by decide) "linux-arm64",
   (c4_dep_fanout epEx (fun _ => false) none depD none platsEx
      ⟨Buck.prcDefault, [], []⟩).2.2 (by decide) "macos"⟩

/-- Invariant of the sequentialized walker: the begun-packages list has
no duplicates and every begun package is already in the visited set. -/
def WalkInv (st : WalkSt) : Prop :=
  st.proc.Nodup ∧ ∀ x ∈ st.proc, x ∈ st.done

/-- Helper: the walker preserves its invariant at every fuel level: a
package joins the visited set at the moment work on it begins, so no
package's work begins twice. -/
theorem walk_inv (gt : Pkg → Nat → Except String (List Nat × List Pkg)) :
    ∀ fuel : Nat,
      (∀ st pkg ts, WalkInv st → WalkInv (genTargets gt fuel st pkg ts)) ∧
      (∀ st ps, WalkInv st → WalkInv (genDepRules gt fuel st ps)) := by
  intro fuel
  induction fuel with
  | zero =>
    constructor
    · intro st pkg ts h
      simpa [genTargets] using h
    · intro st ps h
      simpa [genDepRules] using h
  | succ n ih =>
    have hT : ∀ st pkg ts, WalkInv st → WalkInv (genTargets gt (n + 1) st pkg ts) := by
      intro st pkg ts h
      cases ts with
      | nil => simpa [genTargets] using h
      | cons t rest =>
        simp only [genTargets]
        cases hgt : gt pkg t with
        | error e => exact ih.1 _ pkg rest ⟨h.1, h.2⟩
        | ok pr =>
          obtain ⟨rules, deps⟩ := pr
          cases rules with
          | nil => exact ih.1 _ pkg rest h
          | cons r rs => exact ih.1 _ pkg rest (ih.2 _ deps ⟨h.1, h.2⟩)
    have hD : ∀ st ps, WalkInv st → WalkInv (genDepRules gt (n + 1) st ps) := by
      intro st ps h
      cases ps with
      | nil => simpa [genDepRules] using h
      | cons p rest =>
        simp only [genDepRules]
        by_cases hmem : p.id ∈ st.done
        · rw [if_pos hmem]
          exact ih.2 _ rest h
        · rw [if_neg hmem]
          have hInv1 : WalkInv
              { st with done := p.id :: st.done, proc := st.proc ++ [p.id] } := by
            constructor
            · rw [List.nodup_append]
              refine ⟨h.1, List.nodup_singleton _, ?_⟩
              intro a ha hb
              rw [List.mem_singleton] at hb
              subst hb
              exact hmem (h.2 _ ha)
            · intro x hx
              rcases List.mem_append.mp hx with hx | hx
              · exact List.mem_cons_of_mem _ (h.2 x hx)
              · rw [List.mem_singleton] at hx
                subst hx
                exact List.mem_cons_self _ _
          exact ih.2 _ rest (ih.1 _ p p.targets hInv1)
    exact ⟨hT, hD⟩

/-- Shared third package of the diamond. -/
def pkgC : Pkg := ⟨3, [0]⟩

/-- First dependent package of the diamond. -/
def pkgA : Pkg := ⟨1, [0]⟩

/-- Second dependent package of the diamond. -/
def pkgB : Pkg := ⟨2, [0]⟩

/-- Root package of the diamond. -/
def pkgR : Pkg := ⟨0, [0]⟩

/-- Generation function of the diamond graph: the root depends on the
two dependents in the given discovery order; both depend on the shared
package. -/
def gtD (rootDeps : List Pkg) : Pkg → Nat → Except String (List Nat × List Pkg) :=
  fun p _ =>
    if p.id = 0 then .ok ([0], rootDeps)
    else if p.id = 1 then .ok ([10], [pkgC])
    else if p.id = 2 then .ok ([20], [pkgC])
    else .ok ([30], [])

/-- C6: every package's work begins at most once — the walker inserts a
package into the shared visited set at the moment work on it begins, so
the begun-packages list stays duplicate-free; and on a concrete diamond
dependency the shared package is processed exactly once and its
declarations are emitted exactly once, in both discovery orders. -/
theorem c6_visit_once :
    (∀ (gt : Pkg → Nat → Except String (List Nat × List Pkg)) (fuel : Nat)
        (st : WalkSt) (ps : List Pkg),
      WalkInv st → WalkInv (genDepRules gt fuel st ps)) ∧
    ((genDepRules (gtD [pkgA, pkgB]) 10 ⟨[], [], []⟩ [pkgR]).proc = [0, 1, 3, 2] ∧
      (genDepRules (gtD [pkgB, pkgA]) 10 ⟨[], [], []⟩ [pkgR]).proc = [0, 2, 3, 1] ∧
      (genDepRules (gtD [pkgA, pkgB]) 10 ⟨[], [], []⟩ [pkgR]).out.count (.ok 30) = 1 ∧
      (genDepRules (gtD [pkgB, pkgA]) 10 ⟨[], [], []⟩ [pkgR]).out.count (.ok 30) = 1) := by
  constructor
  · intro gt fuel st ps h
    exact (walk_inv gt fuel).2 st ps h
  · refine ⟨?_, ?_, ?_, ?_⟩ <;> decide

/-- C6 witness: the invariant applied to the diamond run from the empty
state. -/
theorem c6_witness :
    WalkInv (genDepRules (gtD [pkgA, pkgB]) 10 ⟨[], [], []⟩ [pkgR]) :=
  c6_visit_once.1 (gtD [pkgA, pkgB]) 10 ⟨[], [], []⟩ [pkgR]
    ⟨List.nodup_nil, by simp⟩

/-- Helper: the collected result is `ok` exactly when every channel send
was a rule, not an error. -/
theorem collectRules_ok_iff :
    ∀ out : List (Except String Nat),
      (∃ rs, collectRules out = Except.ok rs) ↔ ∀ x ∈ out, exceptIsOk x = true := by
  intro out
  induction out with
  | nil => simp [collectRules]
  | cons x rest ih =>
    cases x with
    | error e => simp [collectRules, exceptIsOk]
    | ok r =>
      simp only [collectRules]
      cases hc : collectRules rest with
      | error e =>
        constructor
        · rintro ⟨rs, hrs⟩
          cases hrs
        · intro hall
          obtain ⟨rs, hrs⟩ := ih.mpr (fun y hy => hall y (List.mem_cons_of_mem _ hy))
          rw [hc] at hrs
          cases hrs
      | ok rs =>
        constructor
        · intro _ y hy
          rcases List.mem_cons.mp hy with rfl | hy
          · rfl
          · exact (ih.mp ⟨rs, hc⟩) y hy
        · intro _
          exact ⟨r :: rs, rfl⟩

/-- Helper: the first error in the channel is the one returned. -/
theorem collectRules_first_error :
    ∀ (pre post : List (Except String Nat)) (e : String),
      (∀ x ∈ pre, exceptIsOk x = true) →
      collectRules (pre ++ .error e :: post) = .error e := by
  intro pre
  induction pre with
  | nil =>
    intro post e _
    rfl
  | cons x rest ih =>
    intro post e hok
    cases x with
    | error f =>
      have hx := hok (.error f) (List.mem_cons_self _ _)
      simp [exceptIsOk] at hx
    | ok r =>
      have htl := ih post e (fun y hy => hok y (List.mem_cons_of_mem _ hy))
      simp only [List.cons_append, collectRules, List.append_eq, htl]

/-- C9: a failing target sends its error and generation continues with
the remaining targets (its dependencies are not traversed through it);
the collected run succeeds exactly when no error was sent; and when a
first error exists it is returned as the single representative together
with the configured remediation hint. -/
theorem c9_error_collection :
    (∀ (gt : Pkg → Nat → Except String (List Nat × List Pkg)) (fuel : Nat)
        (st : WalkSt) (pkg : Pkg) (t : Nat) (ts : List Nat) (e : String),
      gt pkg t = .error e →
      genTargets gt (fuel + 1) st pkg (t :: ts) =
        genTargets gt fuel { st with out := st.out ++ [Except.error e] } pkg ts) ∧
    (∀ (out : List (Except String Nat)) (hint : Option String),
      (∃ rules, buckifyCollect hint out = .ok rules) ↔
        ∀ x ∈ out, exceptIsOk x = true) ∧
    (∀ (pre post : List (Except String Nat)) (e : String) (hint : Option String),
      (∀ x ∈ pre, exceptIsOk x = true) →
      buckifyCollect hint (pre ++ .error e :: post) = .error (e, hint)) := by
  refine ⟨?_, ?_, ?_⟩
  · intro gt fuel st pkg t ts e h
    simp [genTargets, h]
  · intro out hint
    cases hc : collectRules out with
    | ok rules =>
      constructor
      · intro _
        exact (collectRules_ok_iff out).mp ⟨rules, hc⟩
      · intro _
        exact ⟨rules, by simp [buckifyCollect, hc]⟩
    | error e =>
      constructor
      · rintro ⟨rules, hrs⟩
        simp [buckifyCollect, hc] at hrs
      · intro hall
        obtain ⟨rs, hrs⟩ := (collectRules_ok_iff out).mpr hall
        rw [hc] at hrs
        cases hrs
  · intro pre post e hint hok
    simp [buckifyCollect, collectRules_first_error pre post e hok]

/-- Generation function that always fails, used in the C9 witness. -/
def gtErr : Pkg → Nat → Except String (List Nat × List Pkg) :=
  fun _ _ => .error "boom"

/-- C9 witness: a failing target's error is recorded and generation
continues; collection surfaces the first error with the hint. -/
theorem c9_witness :
    (genTargets gtErr 1 ⟨[], [], []⟩ pkgA [7] =
      genTargets gtErr 0 ⟨[], [], [Except.error "boom"]⟩ pkgA []) ∧
    buckifyCollect (some "hint") [Except.ok 1, Except.error "x", Except.ok 2] =
      .error ("x", some "hint") :=
  ⟨c9_error_collection.1 gtErr 0 ⟨[], [], []⟩ pkgA 7 [] "boom" rfl,
   c9_error_collection.2.2 [Except.ok 1] [Except.ok 2] "x" (some "hint") (by decide)⟩

end Bky

end Reindeer
